import Mathlib

/-!
Verification of the openr repository excerpt: the NetlinkFibHandler route
builders (translated from src/openr/platform/NetlinkFibHandler.cpp) and the
Spark neighbor-discovery protocol core.  The Spark core implementation is not
part of the excerpt (only its test suite is), so the Spark state machine is
modelled from the specification document and checked against the properties
the spec and tests assert.
-/

namespace Openr

/-! ### FIB handler: data model (from NetlinkFibHandler.cpp) -/

/-- Mpls action codes, from thrift::MplsActionCode as used in
NetlinkFibHandler.cpp. -/
inductive MplsActionCode
  | PUSH
  | SWAP
  | PHP
  | POP_AND_LOOKUP
deriving DecidableEq, Repr

/-- A thrift MplsAction: action code plus optional swap label and push
labels, as read by NetlinkFibHandler::buildMplsAction. -/
structure MplsAction where
  action : MplsActionCode
  swapLabel : Option Nat
  pushLabels : Option (List Nat)
deriving DecidableEq, Repr

/-- A thrift BinaryAddress: the address bytes (abstracted to a string) and
the optional ifName annotation used by buildNextHop. -/
structure BinaryAddress where
  addr : String
  ifName : Option String
deriving DecidableEq, Repr

/-- thrift::NextHopThrift as consumed by NetlinkFibHandler::buildNextHop. -/
structure NextHopThrift where
  address : BinaryAddress
  mplsAction : Option MplsAction
deriving DecidableEq, Repr

/-- thrift::UnicastRoute: destination plus next-hop list
(NetlinkFibHandler::buildRoute). -/
structure UnicastRoute where
  dest : String
  nextHops : List NextHopThrift
deriving DecidableEq, Repr

/-- thrift::MplsRoute: top label plus next-hop list
(NetlinkFibHandler::buildMplsRoute). -/
structure MplsRoute where
  topLabel : Nat
  nextHops : List NextHopThrift
deriving DecidableEq, Repr

/-- An fbnl next-hop under construction (fbnl::NextHopBuilder state as
driven by buildNextHop / buildMplsAction). -/
structure NlNextHop where
  ifIndex : Option Nat
  gateway : String
  weight : Nat
  labelAction : Option MplsActionCode
  swapLabel : Option Nat
  pushLabels : Option (List Nat)
deriving DecidableEq, Repr

/-- The built fbnl::Route: the fields NetlinkFibHandler::buildRoute and
buildMplsRoute set on fbnl::RouteBuilder.  `routeType = none` means the
builder's default route type (setType was never called). -/
structure NlRoute where
  dest : Option String
  mplsLabel : Option Nat
  protocolId : Nat
  priority : Nat
  flags : Nat
  valid : Bool
  routeType : Option Nat
  nextHops : List NlNextHop
deriving DecidableEq, Repr

/-- Linux rtnetlink RTN_BLACKHOLE route type constant. -/
def RTN_BLACKHOLE : Nat := 6

/-- Platform_constants::kUnknowProtAdminDistance: default priority when the
protocol is not in the priority map. -/
def kUnknowProtAdminDistance : Nat := 255

/-- NetlinkFibHandler::protocolToPriority: look up the protocol in the
priority map, defaulting to kUnknowProtAdminDistance. -/
def protocolToPriority (priorityMap : List (Nat × Nat)) (protocol : Nat) : Nat :=
  match priorityMap.find? (fun kv => kv.1 == protocol) with
  | some kv => kv.2
  | none => kUnknowProtAdminDistance

/-- NetlinkFibHandler::buildMplsAction: apply the thrift mpls action of a
next-hop to the next-hop builder.  Throwing NlException is modelled as
`Except.error`; `lo` is the loopback interface index (getLoopbackIfIndex). -/
def buildMplsAction (lo : Option Nat) (b : NlNextHop) (nh : NextHopThrift) :
    Except String NlNextHop :=
  match nh.mplsAction with
  | none => .ok b
  | some a =>
    let b1 : NlNextHop := { b with labelAction := some a.action }
    match a.action with
    | .SWAP =>
      match a.swapLabel with
      | some l => .ok { b1 with swapLabel := some l }
      | none => .error "Swap label not provided"
    | .PUSH =>
      match a.pushLabels with
      | some ls => .ok { b1 with pushLabels := some ls }
      | none => .error "Push label(s) not provided"
    | .POP_AND_LOOKUP =>
      match lo with
      | some idx => .ok { b1 with ifIndex := some idx }
      | none => .error "POP action, loopback interface not available"
    | .PHP => .ok b1

/-- One iteration of the loop in NetlinkFibHandler::buildNextHop: fresh
builder, optional ifIndex from the interface cache (`ifIndexOf` models
getIfIndex; a missing entry is the folly Optional::value() throw), gateway,
mpls action, weight 0. -/
def buildOneNextHop (ifIndexOf : String → Option Nat) (lo : Option Nat)
    (nh : NextHopThrift) : Except String NlNextHop :=
  let base : NlNextHop :=
    { ifIndex := none, gateway := nh.address.addr, weight := 0,
      labelAction := none, swapLabel := none, pushLabels := none }
  match nh.address.ifName with
  | some name =>
    match ifIndexOf name with
    | some idx => buildMplsAction lo { base with ifIndex := some idx } nh
    | none => .error "ifName not found in interface cache"
  | none => buildMplsAction lo base nh

/-- NetlinkFibHandler::buildNextHop: build each next-hop in order and attach
them to the route builder. -/
def buildNextHopList (ifIndexOf : String → Option Nat) (lo : Option Nat) :
    List NextHopThrift → Except String (List NlNextHop)
  | [] => .ok []
  | nh :: rest =>
    match buildOneNextHop ifIndexOf lo nh with
    | .error e => .error e
    | .ok h =>
      match buildNextHopList ifIndexOf lo rest with
      | .error e => .error e
      | .ok t => .ok (h :: t)

/-- NetlinkFibHandler::buildRoute: set destination, protocol, priority,
flags 0, valid; an empty next-hop list becomes RTN_BLACKHOLE with no
next-hops, otherwise the next-hops are attached and the route type is left
at the builder default. -/
def buildRoute (priorityMap : List (Nat × Nat)) (ifIndexOf : String → Option Nat)
    (lo : Option Nat) (route : UnicastRoute) (protocol : Nat) :
    Except String NlRoute :=
  let base : NlRoute :=
    { dest := some route.dest, mplsLabel := none, protocolId := protocol,
      priority := protocolToPriority priorityMap protocol, flags := 0,
      valid := true, routeType := none, nextHops := [] }
  if route.nextHops.isEmpty then
    .ok { base with routeType := some RTN_BLACKHOLE }
  else
    match buildNextHopList ifIndexOf lo route.nextHops with
    | .error e => .error e
    | .ok nhs => .ok { base with nextHops := nhs }

/-- NetlinkFibHandler::buildMplsRoute: same shape as buildRoute but keyed by
the mpls top label. -/
def buildMplsRoute (priorityMap : List (Nat × Nat)) (ifIndexOf : String → Option Nat)
    (lo : Option Nat) (route : MplsRoute) (protocol : Nat) :
    Except String NlRoute :=
  let base : NlRoute :=
    { dest := none, mplsLabel := some route.topLabel, protocolId := protocol,
      priority := protocolToPriority priorityMap protocol, flags := 0,
      valid := true, routeType := none, nextHops := [] }
  if route.nextHops.isEmpty then
    .ok { base with routeType := some RTN_BLACKHOLE }
  else
    match buildNextHopList ifIndexOf lo route.nextHops with
    | .error e => .error e
    | .ok nhs => .ok { base with nextHops := nhs }

/-! ### Spark: regex-based area matching

Modelled from the spec: the Spark core implementation is not part of the
repository excerpt; only its tests are.  Section 3 (AreaConfig) says:
"Matching is performed on the peer's nodeName against neighborRegex; the
first rule that matches fixes the local candidate area.  Regex is
case-insensitive, anchored to full string."  The matcher supports the atoms
appearing in the configuration language of the tests: literal characters,
a dot wildcard, and a Kleene star on the previous atom. -/

/-- Modelled from the spec: a regex atom is a literal character or the dot
wildcard. -/
inductive RAtom
  | lit (c : Char)
  | dot
deriving DecidableEq, Repr

/-- Modelled from the spec: one regex piece: an atom, possibly starred. -/
structure RPiece where
  atom : RAtom
  starred : Bool
deriving DecidableEq, Repr

/-- Modelled from the spec: turn a character into its regex atom. -/
def atomOfChar (c : Char) : RAtom :=
  if c = '.' then .dot else .lit c

/-- Modelled from the spec: parse a regex string into its pieces; a star
character marks the preceding atom as starred. -/
def parsePieces : List Char → List RPiece
  | [] => []
  | c :: '*' :: rest => ⟨atomOfChar c, true⟩ :: parsePieces rest
  | c :: rest => ⟨atomOfChar c, false⟩ :: parsePieces rest

/-- Modelled from the spec: case-insensitive atom match against one
character. -/
def atomMatch (a : RAtom) (c : Char) : Bool :=
  match a with
  | .dot => true
  | .lit l => l.toLower = c.toLower

/-- Modelled from the spec: match a starred atom: let the rest of the
pattern (the continuation `f`) match after the star consumed zero or more
characters, each matching the atom. -/
def starMatch (a : RAtom) (f : List Char → Bool) : List Char → Bool
  | [] => f []
  | c :: cs => f (c :: cs) || (atomMatch a c && starMatch a f cs)

/-- Modelled from the spec: anchored (full-string) regex match of a piece
list against a character list. -/
def piecesMatch : List RPiece → List Char → Bool
  | [], cs => cs.isEmpty
  | ⟨_, false⟩ :: _, [] => false
  | ⟨a, false⟩ :: ps, c :: cs => atomMatch a c && piecesMatch ps cs
  | ⟨a, true⟩ :: ps, cs => starMatch a (piecesMatch ps) cs

/-- Modelled from the spec: case-insensitive regex match anchored to the
full string, applied to a pattern string and a subject string. -/
def regexFullMatch (pat s : String) : Bool :=
  piecesMatch (parsePieces pat.data) s.data

/-- Modelled from the spec: one area configuration rule (the
interfaceRegex of the tests is always ".*" and plays no role in the claims,
so only the neighbor rule is modelled). -/
structure AreaConfig where
  areaId : String
  neighborRegex : String
deriving DecidableEq, Repr

/-- Modelled from the spec: the first configured rule whose neighborRegex
matches the peer's nodeName fixes the local candidate area. -/
def findFirstMatchingArea (areas : List AreaConfig) (peer : String) : Option String :=
  match areas with
  | [] => none
  | a :: rest =>
    if regexFullMatch a.neighborRegex peer then some a.areaId
    else findFirstMatchingArea rest peer

/-- Modelled from the spec: the well-known default area identifier adopted
when one side lacks area configuration entirely. -/
def kDefaultArea : String := "0"

/-- Modelled from the spec: a node's area proposal for a peer: it lacks
area configuration entirely, or no rule matched, or the first matching
rule's area. -/
inductive AreaProposal
  | noConfig
  | noMatch
  | area (a : String)
deriving DecidableEq, Repr

/-- Modelled from the spec: compute the local area proposal for a peer
nodeName from the configured rules. -/
def proposeArea (areas : List AreaConfig) (peer : String) : AreaProposal :=
  match areas with
  | [] => .noConfig
  | _ =>
    match findFirstMatchingArea areas peer with
    | some a => .area a
    | none => .noMatch

/-- Modelled from the spec: area negotiation at NEGOTIATE.  If either side
fails to propose an area the negotiation fails; if one side lacks area
configuration entirely both sides adopt the default area; otherwise the two
proposals must agree. -/
def negotiateArea : AreaProposal → AreaProposal → Option String
  | .noMatch, _ => none
  | _, .noMatch => none
  | .noConfig, _ => some kDefaultArea
  | _, .noConfig => some kDefaultArea
  | .area a, .area b => if a = b then some a else none

/-- Modelled from the spec: two IPv4 addresses (as 32-bit naturals) lie in
the same subnet of the given prefix length. -/
def sameV4Subnet (addr1 addr2 v4Len : Nat) : Bool :=
  addr1 / 2 ^ (32 - v4Len) = addr2 / 2 ^ (32 - v4Len)

/-! ### Spark: data model

Modelled from the spec, sections 3 (data model), 4.4 (receive path and
state machine), 4.6 (graceful restart) and 6 (public API).  Time is in
milliseconds as a natural number; timers are stored as absolute deadlines
and fire once the current time reaches them. -/

/-- Modelled from the spec: per-neighbor state machine states. -/
inductive SparkNeighState
  | IDLE
  | WARM
  | NEGOTIATE
  | ESTABLISHED
deriving DecidableEq, Repr

/-- Modelled from the spec: the type of a published neighbor event. -/
inductive EventType
  | UP
  | DOWN
  | RESTARTING
  | RESTARTED
  | RTT_CHANGE
deriving DecidableEq, Repr

/-- Modelled from the spec: a published NeighborEvent (type, interface,
peer nodeName, negotiated area). -/
structure NeighborEvent where
  type : EventType
  ifName : String
  nodeName : String
  area : String
deriving DecidableEq, Repr

/-- Modelled from the spec: an interface record supplied by the link
monitor via updateInterfaceDb; the v4 CIDR is an address plus prefix
length. -/
structure InterfaceRecord where
  name : String
  ifIndex : Nat
  v4Addr : Nat
  v4Len : Nat
  v6LinkLocal : String
deriving DecidableEq, Repr

/-- Modelled from the spec: the node's Spark configuration (the fields the
claims depend on). -/
structure SparkConfig where
  domainName : String
  nodeName : String
  grHoldMs : Nat
  heartbeatHoldMs : Nat
  negotiateHoldMs : Nat
  enableV4 : Bool
  areas : List AreaConfig
deriving Repr

/-- Modelled from the spec: a wire HelloMsg (the fields the claims depend
on; reflectedNeighbors is abstracted to the list of neighbor nodeNames the
sender currently hears). -/
structure HelloMsg where
  domain : String
  nodeName : String
  seqNum : Nat
  restarting : Bool
  reflectedNeighbors : List String
  v4Addr : Nat
  v6Addr : String
deriving DecidableEq, Repr

/-- Modelled from the spec: a wire HandshakeMsg. -/
structure HandshakeMsg where
  domain : String
  nodeName : String
  neighborNodeName : String
  proposedArea : AreaProposal
  transportV4 : Nat
  transportV6 : String
  heartbeatHoldMs : Nat
  grHoldMs : Nat
deriving DecidableEq, Repr

/-- Modelled from the spec: a wire HeartbeatMsg. -/
structure HeartbeatMsg where
  domain : String
  nodeName : String
  seqNum : Nat
deriving DecidableEq, Repr

/-- Modelled from the spec: the per-(interface, remote nodeName) neighbor
record: state machine state, restart flag, last accepted peer sequence
number, learned transport addresses, negotiated area, the peer-advertised
hold times, and the three timers as optional absolute deadlines. -/
structure Neighbor where
  state : SparkNeighState
  restartFlag : Bool
  remoteSeqNum : Nat
  transportV4 : Nat
  transportV6 : String
  area : String
  heartbeatHoldMs : Nat
  grHoldMs : Nat
  heartbeatDeadline : Option Nat
  grDeadline : Option Nat
  negotiateDeadline : Option Nat
deriving DecidableEq, Repr

/-- Modelled from the spec: the whole node state: tracked interfaces and
the neighbor table keyed by (interface name, remote nodeName). -/
structure SparkState where
  ifaces : List InterfaceRecord
  neighbors : List ((String × String) × Neighbor)
deriving Repr

/-- Modelled from the spec: inputs driving the node: a received packet on
an interface, an interface-db update, or the bare passage of time (timers
only). -/
inductive SparkInput
  | hello (ifName : String) (msg : HelloMsg)
  | handshake (ifName : String) (msg : HandshakeMsg)
  | heartbeat (ifName : String) (msg : HeartbeatMsg)
  | updateDb (ifs : List InterfaceRecord)
  | advance
deriving Repr

/-! ### Spark: lookups -/

/-- Modelled from the spec: find a tracked interface by name. -/
def findIface (st : SparkState) (ifName : String) : Option InterfaceRecord :=
  st.ifaces.find? (fun i => i.name == ifName)

/-- Modelled from the spec: look up the neighbor record for an (interface,
peer nodeName) key. -/
def getNeighbor (st : SparkState) (ifName peer : String) : Option Neighbor :=
  (st.neighbors.find? (fun kv => kv.1 == (ifName, peer))).map (fun kv => kv.2)

/-- Modelled from the spec: the diagnostic getSparkNeighState query:
the state-machine state of a tracked neighbor, absent when there is no
neighbor table entry. -/
def getSparkNeighState (st : SparkState) (ifName peer : String) :
    Option SparkNeighState :=
  (getNeighbor st ifName peer).map (fun n => n.state)

/-- Modelled from the spec: insert or replace the neighbor record at a
key. -/
def upsertNeighbor (l : List ((String × String) × Neighbor))
    (k : String × String) (n : Neighbor) : List ((String × String) × Neighbor) :=
  match l with
  | [] => [(k, n)]
  | kv :: rest => if kv.1 = k then (k, n) :: rest else kv :: upsertNeighbor rest k n

/-! ### Spark: timers -/

/-- Modelled from the spec: a stored deadline has been reached at the
current time (an unset timer never fires). -/
def deadlineReached : Option Nat → Nat → Bool
  | none, _ => false
  | some d, now => d ≤ now

/-- Modelled from the spec, section 4.4: the timer-driven transitions for
one neighbor at the current time.  During graceful restart the GR hold
timer expiring emits DOWN and removes the neighbor; outside graceful
restart the heartbeat hold timer expiring emits DOWN and removes the
neighbor; a NEGOTIATE neighbor whose negotiate-hold expires reverts to
WARM with no event. -/
def neighborTimerStep (now : Nat) (k : String × String) (n : Neighbor) :
    Option Neighbor × List NeighborEvent :=
  if n.state = .ESTABLISHED ∧ n.restartFlag ∧ deadlineReached n.grDeadline now then
    (none, [⟨.DOWN, k.1, k.2, n.area⟩])
  else if n.state = .ESTABLISHED ∧ ¬n.restartFlag ∧
      deadlineReached n.heartbeatDeadline now then
    (none, [⟨.DOWN, k.1, k.2, n.area⟩])
  else if n.state = .NEGOTIATE ∧ deadlineReached n.negotiateDeadline now then
    (some { n with state := .WARM, negotiateDeadline := none }, [])
  else
    (some n, [])

/-- Modelled from the spec: fire all expired timers over the neighbor
table, collecting removals and events in table order. -/
def fireTimersList (now : Nat) :
    List ((String × String) × Neighbor) →
    List ((String × String) × Neighbor) × List NeighborEvent
  | [] => ([], [])
  | (k, n) :: rest =>
    let r := neighborTimerStep now k n
    let rr := fireTimersList now rest
    match r.1 with
    | some n2 => ((k, n2) :: rr.1, r.2 ++ rr.2)
    | none => (rr.1, r.2 ++ rr.2)

/-! ### Spark: receive path -/

/-- Modelled from the spec: a fresh neighbor record created from the first
valid hello (new records start in IDLE and move to WARM on the hello). -/
def newNeighbor (msg : HelloMsg) : Neighbor :=
  { state := .WARM, restartFlag := false, remoteSeqNum := msg.seqNum,
    transportV4 := msg.v4Addr, transportV6 := msg.v6Addr, area := "",
    heartbeatHoldMs := 0, grHoldMs := 0,
    heartbeatDeadline := none, grDeadline := none, negotiateDeadline := none }

/-- Modelled from the spec, sections 4.4 and 4.6: the hello-driven
transitions of an existing neighbor record.  WARM moves to NEGOTIATE when
our identity appears in reflectedNeighbors (arming the negotiate-hold
timer); ESTABLISHED refreshes the heartbeat hold on a normal hello, emits
RESTARTING and starts the GR hold (suspending heartbeat loss) on a
restarting hello, and during graceful restart emits RESTARTED and resumes
the heartbeat hold on a hello with a reset sequence space (a sequence
number strictly below the last observed one). -/
def helloNeighborStep (cfg : SparkConfig) (now : Nat) (k : String × String)
    (msg : HelloMsg) (n : Neighbor) : Neighbor × List NeighborEvent :=
  match n.state with
  | .IDLE => ({ n with state := .WARM, remoteSeqNum := msg.seqNum }, [])
  | .WARM =>
    if msg.reflectedNeighbors.contains cfg.nodeName then
      ({ n with
          state := .NEGOTIATE, remoteSeqNum := msg.seqNum,
          transportV4 := msg.v4Addr, transportV6 := msg.v6Addr,
          negotiateDeadline := some (now + cfg.negotiateHoldMs) }, [])
    else
      ({ n with
          remoteSeqNum := msg.seqNum,
          transportV4 := msg.v4Addr, transportV6 := msg.v6Addr }, [])
  | .NEGOTIATE => ({ n with remoteSeqNum := msg.seqNum }, [])
  | .ESTABLISHED =>
    if n.restartFlag then
      if msg.seqNum < n.remoteSeqNum then
        ({ n with
            restartFlag := false, remoteSeqNum := msg.seqNum,
            grDeadline := none,
            heartbeatDeadline := some (now + n.heartbeatHoldMs) },
          [⟨.RESTARTED, k.1, k.2, n.area⟩])
      else if msg.restarting then
        ({ n with
            remoteSeqNum := msg.seqNum,
            grDeadline := some (now + n.grHoldMs) }, [])
      else
        ({ n with remoteSeqNum := msg.seqNum }, [])
    else
      if msg.restarting then
        ({ n with
            restartFlag := true, remoteSeqNum := msg.seqNum,
            grDeadline := some (now + n.grHoldMs),
            heartbeatDeadline := none },
          [⟨.RESTARTING, k.1, k.2, n.area⟩])
      else
        ({ n with
            remoteSeqNum := msg.seqNum,
            heartbeatDeadline := some (now + n.heartbeatHoldMs) }, [])

/-- Modelled from the spec, sections 4.2 and 4.4: the node-level hello
receive path.  A hello from a different domain or echoing our own nodeName
is dropped before any further processing; a hello on an untracked
interface is dropped; otherwise the neighbor record is created or
advanced. -/
def handleHello (cfg : SparkConfig) (st : SparkState) (now : Nat)
    (ifName : String) (msg : HelloMsg) : SparkState × List NeighborEvent :=
  if msg.domain ≠ cfg.domainName then (st, [])
  else if msg.nodeName = cfg.nodeName then (st, [])
  else
    match findIface st ifName with
    | none => (st, [])
    | some _ =>
      match getNeighbor st ifName msg.nodeName with
      | none =>
        ({ st with neighbors :=
            upsertNeighbor st.neighbors (ifName, msg.nodeName) (newNeighbor msg) },
          [])
      | some n =>
        let r := helloNeighborStep cfg now (ifName, msg.nodeName) msg n
        ({ st with neighbors :=
            upsertNeighbor st.neighbors (ifName, msg.nodeName) r.1 }, r.2)

/-- Modelled from the spec, sections 4.4 and 4.5: the handshake receive
path.  Domain-mismatching, self-looped or mis-addressed handshakes are
dropped; in NEGOTIATE the area negotiation and the v4 subnet validation
must both succeed to commit the area and heartbeat parameters, start the
heartbeat hold and emit UP; on failure the neighbor reverts to WARM with
no event; a duplicate handshake while ESTABLISHED refreshes the heartbeat
hold without re-emitting UP. -/
def handshakeNeighborStep (cfg : SparkConfig) (now : Nat)
    (iface : InterfaceRecord) (k : String × String) (msg : HandshakeMsg)
    (n : Neighbor) : Neighbor × List NeighborEvent :=
  match n.state with
  | .NEGOTIATE =>
    match negotiateArea (proposeArea cfg.areas k.2) msg.proposedArea with
    | none => ({ n with state := .WARM, negotiateDeadline := none }, [])
    | some ar =>
      if cfg.enableV4 ∧ ¬sameV4Subnet iface.v4Addr msg.transportV4 iface.v4Len then
        ({ n with state := .WARM, negotiateDeadline := none }, [])
      else
        ({ n with
            state := .ESTABLISHED, area := ar,
            transportV4 := msg.transportV4, transportV6 := msg.transportV6,
            heartbeatHoldMs := msg.heartbeatHoldMs, grHoldMs := msg.grHoldMs,
            heartbeatDeadline := some (now + msg.heartbeatHoldMs),
            negotiateDeadline := none },
          [⟨.UP, k.1, k.2, ar⟩])
  | .ESTABLISHED =>
    ({ n with heartbeatDeadline := some (now + n.heartbeatHoldMs) }, [])
  | _ => (n, [])

/-- Modelled from the spec, sections 4.2 and 4.4: the node-level handshake
receive path: drop on domain mismatch, self-loop or mis-addressed
handshake, or an untracked interface or unknown neighbor; otherwise apply
the per-neighbor handshake transition. -/
def handleHandshake (cfg : SparkConfig) (st : SparkState) (now : Nat)
    (ifName : String) (msg : HandshakeMsg) : SparkState × List NeighborEvent :=
  if msg.domain ≠ cfg.domainName then (st, [])
  else if msg.nodeName = cfg.nodeName then (st, [])
  else if msg.neighborNodeName ≠ cfg.nodeName then (st, [])
  else
    match findIface st ifName with
    | none => (st, [])
    | some iface =>
      match getNeighbor st ifName msg.nodeName with
      | none => (st, [])
      | some n =>
        let r := handshakeNeighborStep cfg now iface (ifName, msg.nodeName) msg n
        ({ st with
            neighbors := upsertNeighbor st.neighbors (ifName, msg.nodeName) r.1 },
          r.2)

/-- Modelled from the spec, section 4.4: the heartbeat receive path: an
ESTABLISHED neighbor outside graceful restart refreshes its heartbeat
hold; anything else is ignored. -/
def handleHeartbeat (cfg : SparkConfig) (st : SparkState) (now : Nat)
    (ifName : String) (msg : HeartbeatMsg) : SparkState × List NeighborEvent :=
  if msg.domain ≠ cfg.domainName then (st, [])
  else if msg.nodeName = cfg.nodeName then (st, [])
  else
    match findIface st ifName with
    | none => (st, [])
    | some _ =>
      match getNeighbor st ifName msg.nodeName with
      | none => (st, [])
      | some n =>
        if n.state = .ESTABLISHED ∧ ¬n.restartFlag then
          ({ st with
              neighbors := upsertNeighbor st.neighbors (ifName, msg.nodeName)
                ({ n with heartbeatDeadline := some (now + n.heartbeatHoldMs) }) }, [])
        else (st, [])

/-! ### Spark: interface updates and the step relation -/

/-- Modelled from the spec, section 4.1: remove every neighbor living on a
removed interface, emitting DOWN for each ESTABLISHED one. -/
def removeNeighborsOnIfaces (removed : List String) :
    List ((String × String) × Neighbor) →
    List ((String × String) × Neighbor) × List NeighborEvent
  | [] => ([], [])
  | (k, n) :: rest =>
    let rr := removeNeighborsOnIfaces removed rest
    if removed.contains k.1 then
      (rr.1,
        (if n.state = .ESTABLISHED then [⟨.DOWN, k.1, k.2, n.area⟩] else []) ++ rr.2)
    else ((k, n) :: rr.1, rr.2)

/-- Modelled from the spec, sections 4.1 and 6: updateInterfaceDb replaces
the tracked interface set; each removed interface synchronously cancels
its timers and removes its neighbors, emitting DOWN for ESTABLISHED
ones. -/
def updateInterfaceDb (st : SparkState) (newIfs : List InterfaceRecord) :
    SparkState × List NeighborEvent :=
  let removed := (st.ifaces.filter
    (fun i => !(newIfs.any (fun j => j.name == i.name)))).map (fun i => i.name)
  let r := removeNeighborsOnIfaces removed st.neighbors
  ({ ifaces := newIfs, neighbors := r.1 }, r.2)

/-- Modelled from the spec: dispatch one input. -/
def handleInput (cfg : SparkConfig) (st : SparkState) (now : Nat) :
    SparkInput → SparkState × List NeighborEvent
  | .hello ifName msg => handleHello cfg st now ifName msg
  | .handshake ifName msg => handleHandshake cfg st now ifName msg
  | .heartbeat ifName msg => handleHeartbeat cfg st now ifName msg
  | .updateDb ifs => updateInterfaceDb st ifs
  | .advance => (st, [])

/-- Modelled from the spec, section 5: one scheduling step of the
single-threaded event loop at time `now`: fire every expired timer, then
process the input. -/
def sparkStep (cfg : SparkConfig) (st : SparkState) (now : Nat)
    (inp : SparkInput) : SparkState × List NeighborEvent :=
  let ft := fireTimersList now st.neighbors
  let st1 : SparkState := { st with neighbors := ft.1 }
  let r := handleInput cfg st1 now inp
  (r.1, ft.2 ++ r.2)

/-- Modelled from the spec: run a timed input trace, concatenating the
emitted events in order. -/
def sparkRun (cfg : SparkConfig) (st : SparkState) :
    List (Nat × SparkInput) → SparkState × List NeighborEvent
  | [] => (st, [])
  | (t, i) :: rest =>
    let r := sparkStep cfg st t i
    let rr := sparkRun cfg r.1 rest
    (rr.1, r.2 ++ rr.2)

/-- The subsequence of events concerning one (interface, peer) key. -/
def eventsFor (ifName peer : String) (evs : List NeighborEvent) :
    List NeighborEvent :=
  evs.filter (fun e => e.ifName == ifName && e.nodeName == peer)

/-- The subsequence of events concerning one interface. -/
def eventsForIf (ifName : String) (evs : List NeighborEvent) :
    List NeighborEvent :=
  evs.filter (fun e => e.ifName == ifName)

/-- Modelled from the spec: an input carrying a packet whose domain
differs from the local domain. -/
def domainMismatchInput (cfg : SparkConfig) : SparkInput → Prop
  | .hello _ m => m.domain ≠ cfg.domainName
  | .handshake _ m => m.domain ≠ cfg.domainName
  | .heartbeat _ m => m.domain ≠ cfg.domainName
  | .updateDb _ => False
  | .advance => False

/-- Modelled from the spec: an input carrying a packet that echoes the
local nodeName (a self-looped packet). -/
def selfLoopInput (cfg : SparkConfig) : SparkInput → Prop
  | .hello _ m => m.nodeName = cfg.nodeName
  | .handshake _ m => m.nodeName = cfg.nodeName
  | .heartbeat _ m => m.nodeName = cfg.nodeName
  | .updateDb _ => False
  | .advance => False

/-- Modelled from the spec: a neighbor that has not completed negotiation:
WARM or NEGOTIATE, with neither the heartbeat hold nor the GR hold
armed. -/
def preAdjNeighbor (n : Neighbor) : Prop :=
  (n.state = .WARM ∨ n.state = .NEGOTIATE) ∧
  n.heartbeatDeadline = none ∧ n.grDeadline = none

/-- Modelled from the spec: an input of the v4-mismatch scenario: time
passing, or a packet from the mismatching peer on the watched interface,
where any handshake advertises a v4 address outside the local interface's
v4 subnet (v4 validation enabled). -/
def c6Input (cfg : SparkConfig) (ifName peer : String)
    (iface : InterfaceRecord) : SparkInput → Prop
  | .advance => True
  | .hello ifN m => ifN = ifName ∧ m.domain = cfg.domainName ∧ m.nodeName = peer
  | .heartbeat ifN m => ifN = ifName ∧ m.domain = cfg.domainName ∧ m.nodeName = peer
  | .handshake ifN m => ifN = ifName ∧ m.domain = cfg.domainName ∧
      m.nodeName = peer ∧ m.neighborNodeName = cfg.nodeName ∧
      cfg.enableV4 = true ∧
      sameV4Subnet iface.v4Addr m.transportV4 iface.v4Len = false
  | .updateDb _ => False

/-- Modelled from the spec: an input that is not an interface-db update
(packets and time only). -/
def noUpdateDbInput : SparkInput → Prop
  | .updateDb _ => False
  | _ => True

/-! ### Concrete instances (the test topology) used to instantiate claims -/

/-- Concrete interface: iface1, 192.168.0.1/24, fe80::1. -/
def wIface1 : InterfaceRecord :=
  { name := "iface1", ifIndex := 1, v4Addr := 3232235521, v4Len := 24,
    v6LinkLocal := "fe80::1" }

/-- Concrete interface: iface2, 192.168.0.2/24, fe80::2. -/
def wIface2 : InterfaceRecord :=
  { name := "iface2", ifIndex := 2, v4Addr := 3232235522, v4Len := 24,
    v6LinkLocal := "fe80::2" }

/-- Area rules of node rsw001: 1 → RSW.*, 2 → FSW.*. -/
def c4areas1 : List AreaConfig := [⟨"1", "RSW.*"⟩, ⟨"2", "FSW.*"⟩]

/-- Area rules of node fsw002: 1 → FSW.*, 2 → RSW.*. -/
def c4areas2 : List AreaConfig := [⟨"1", "FSW.*"⟩, ⟨"2", "RSW.*"⟩]

/-- Configuration of node rsw001 with the first area rule set. -/
def c4cfg1 : SparkConfig :=
  { domainName := "Fire_and_Blood", nodeName := "rsw001", grHoldMs := 500,
    heartbeatHoldMs := 200, negotiateHoldMs := 500, enableV4 := true,
    areas := c4areas1 }

/-- Configuration of node fsw002 with the second area rule set. -/
def c4cfg2 : SparkConfig :=
  { c4cfg1 with nodeName := "fsw002", areas := c4areas2 }

/-- First hello from fsw002 seen by rsw001 (nothing reflected yet). -/
def c4hello1 : HelloMsg :=
  { domain := "Fire_and_Blood", nodeName := "fsw002", seqNum := 10,
    restarting := false, reflectedNeighbors := [], v4Addr := 3232235522,
    v6Addr := "fe80::2" }

/-- Second hello from fsw002: it now reflects rsw001. -/
def c4hello2 : HelloMsg :=
  { c4hello1 with seqNum := 11, reflectedNeighbors := ["rsw001"] }

/-- Handshake from fsw002 to rsw001 carrying fsw002's area proposal for
rsw001 (computed from fsw002's own rules). -/
def c4hs1 : HandshakeMsg :=
  { domain := "Fire_and_Blood", nodeName := "fsw002",
    neighborNodeName := "rsw001", proposedArea := proposeArea c4areas2 "rsw001",
    transportV4 := 3232235522, transportV6 := "fe80::2",
    heartbeatHoldMs := 200, grHoldMs := 500 }

/-- First hello from rsw001 seen by fsw002. -/
def c4hello1R : HelloMsg :=
  { c4hello1 with nodeName := "rsw001", v4Addr := 3232235521, v6Addr := "fe80::1" }

/-- Second hello from rsw001: it now reflects fsw002. -/
def c4hello2R : HelloMsg :=
  { c4hello1R with seqNum := 11, reflectedNeighbors := ["fsw002"] }

/-- Handshake from rsw001 to fsw002 carrying rsw001's area proposal for
fsw002 (computed from rsw001's own rules). -/
def c4hs2 : HandshakeMsg :=
  { c4hs1 with
      nodeName := "rsw001", neighborNodeName := "fsw002",
      proposedArea := proposeArea c4areas1 "fsw002", transportV4 := 3232235521,
      transportV6 := "fe80::1" }

/-- rsw001's whole discovery run against fsw002. -/
def c4run1 : SparkState × List NeighborEvent :=
  sparkRun c4cfg1 { ifaces := [wIface1], neighbors := [] }
    [(0, .hello "iface1" c4hello1), (200, .hello "iface1" c4hello2),
      (250, .handshake "iface1" c4hs1)]

/-- fsw002's whole discovery run against rsw001. -/
def c4run2 : SparkState × List NeighborEvent :=
  sparkRun c4cfg2 { ifaces := [wIface2], neighbors := [] }
    [(0, .hello "iface2" c4hello1R), (200, .hello "iface2" c4hello2R),
      (250, .handshake "iface2" c4hs2)]

/-- Concrete baseline configuration of node-1. -/
def wCfg : SparkConfig :=
  { domainName := "Fire_and_Blood", nodeName := "node-1", grHoldMs := 500,
    heartbeatHoldMs := 200, negotiateHoldMs := 500, enableV4 := true,
    areas := [] }

/-- Concrete ESTABLISHED neighbor record for node-2, adjacency formed at
time 250 (heartbeat hold armed until 450). -/
def wNeighEst : Neighbor :=
  { state := .ESTABLISHED, restartFlag := false, remoteSeqNum := 11,
    transportV4 := 3232235522, transportV6 := "fe80::2", area := "0",
    heartbeatHoldMs := 200, grHoldMs := 500, heartbeatDeadline := some 450,
    grDeadline := none, negotiateDeadline := none }

/-- Concrete node-1 state with one established neighbor on iface1. -/
def wStEst : SparkState :=
  { ifaces := [wIface1], neighbors := [(("iface1", "node-2"), wNeighEst)] }

/-- Concrete node-1 state with no neighbors yet. -/
def wSt1 : SparkState := { ifaces := [wIface1], neighbors := [] }

/-- Concrete node-2 state with no neighbors yet. -/
def wSt2 : SparkState := { ifaces := [wIface2], neighbors := [] }

/-- node-2's goodbye hello: restarting=true. -/
def wHelloRestart : HelloMsg :=
  { domain := "Fire_and_Blood", nodeName := "node-2", seqNum := 12,
    restarting := true, reflectedNeighbors := ["node-1"],
    v4Addr := 3232235522, v6Addr := "fe80::2" }

/-- node-2's first hello after restart: reset sequence space. -/
def wHelloFresh : HelloMsg :=
  { wHelloRestart with seqNum := 1, restarting := false }

/-- A hello from a foreign domain. -/
def wHelloBadDom : HelloMsg :=
  { wHelloRestart with domain := "Winter_Is_Coming", restarting := false }

/-- A handshake from a foreign domain. -/
def wHsBadDom : HandshakeMsg :=
  { domain := "Winter_Is_Coming", nodeName := "node-2",
    neighborNodeName := "node-1", proposedArea := .noConfig,
    transportV4 := 3232235522, transportV6 := "fe80::2",
    heartbeatHoldMs := 200, grHoldMs := 500 }

/-- A heartbeat from a foreign domain. -/
def wHbBadDom : HeartbeatMsg :=
  { domain := "Winter_Is_Coming", nodeName := "node-2", seqNum := 5 }

/-- A self-looped hello: node-1 hears its own hello. -/
def wHelloSelf : HelloMsg :=
  { wHelloRestart with
      nodeName := "node-1", restarting := false, reflectedNeighbors := [] }

/-- A hello from node-2 that never reflects node-1 (unidirectional). -/
def wHelloNoRefl : HelloMsg :=
  { wHelloRestart with
      seqNum := 10, restarting := false, reflectedNeighbors := [] }

/-- Concrete /31 interface for the v4 subnet-mismatch scenario:
192.168.0.2/31. -/
def wIfaceS : InterfaceRecord :=
  { name := "iface1", ifIndex := 1, v4Addr := 3232235522, v4Len := 31,
    v6LinkLocal := "fe80::1" }

/-- Concrete NEGOTIATE neighbor for the v4 subnet-mismatch scenario. -/
def c6neigh : Neighbor :=
  { state := .NEGOTIATE, restartFlag := false, remoteSeqNum := 11,
    transportV4 := 3232235524, transportV6 := "fe80::2", area := "",
    heartbeatHoldMs := 0, grHoldMs := 0, heartbeatDeadline := none,
    grDeadline := none, negotiateDeadline := some 700 }

/-- Concrete state for the v4 subnet-mismatch scenario. -/
def c6st : SparkState :=
  { ifaces := [wIfaceS], neighbors := [(("iface1", "node-2"), c6neigh)] }

/-- Handshake advertising 192.168.0.4, outside the local /31. -/
def c6hsBad : HandshakeMsg :=
  { domain := "Fire_and_Blood", nodeName := "node-2",
    neighborNodeName := "node-1", proposedArea := .noConfig,
    transportV4 := 3232235524, transportV6 := "fe80::2",
    heartbeatHoldMs := 200, grHoldMs := 500 }

/-- Handshake advertising 192.168.0.3, inside the local /31. -/
def c6hsGood : HandshakeMsg := { c6hsBad with transportV4 := 3232235523 }

/-! ### FIB handler: lemmas -/

theorem buildNextHopList_length (ifIndexOf : String → Option Nat) (lo : Option Nat) :
    ∀ (l : List NextHopThrift) (r : List NlNextHop),
      buildNextHopList ifIndexOf lo l = .ok r → r.length = l.length := by
  intro l
  induction l with
  | nil => intro r h; simp [buildNextHopList] at h; simp [← h]
  | cons nh rest ih =>
    intro r h
    simp only [buildNextHopList] at h
    cases h1 : buildOneNextHop ifIndexOf lo nh with
    | error e => rw [h1] at h; exact absurd h (by simp)
    | ok hd =>
      rw [h1] at h
      cases h2 : buildNextHopList ifIndexOf lo rest with
      | error e => rw [h2] at h; exact absurd h (by simp)
      | ok tl =>
        rw [h2] at h
        simp only [Except.ok.injEq] at h
        subst h
        simp [ih tl h2]

/-- C10: In the FIB handler, buildRoute and buildMplsRoute map a route whose
nextHops list is empty to a blackhole (drop) route: the built netlink route
has type RTN_BLACKHOLE and no next-hops attached; for every non-empty
nextHops list, next-hops are attached and the route type is left at its
default (setType never called, modelled as `routeType = none`). -/
theorem c10_blackhole_on_empty_nexthops
    (priorityMap : List (Nat × Nat)) (ifIndexOf : String → Option Nat)
    (lo : Option Nat) (route : UnicastRoute) (mroute : MplsRoute) (protocol : Nat) :
    (route.nextHops = [] →
      ∃ r, buildRoute priorityMap ifIndexOf lo route protocol = .ok r ∧
        r.routeType = some RTN_BLACKHOLE ∧ r.nextHops = []) ∧
    (route.nextHops ≠ [] →
      ∀ r, buildRoute priorityMap ifIndexOf lo route protocol = .ok r →
        r.routeType = none ∧ r.nextHops ≠ []) ∧
    (mroute.nextHops = [] →
      ∃ r, buildMplsRoute priorityMap ifIndexOf lo mroute protocol = .ok r ∧
        r.routeType = some RTN_BLACKHOLE ∧ r.nextHops = []) ∧
    (mroute.nextHops ≠ [] →
      ∀ r, buildMplsRoute priorityMap ifIndexOf lo mroute protocol = .ok r →
        r.routeType = none ∧ r.nextHops ≠ []) := by
  refine ⟨?_, ?_, ?_, ?_⟩
  · intro hempty
    have hok : buildRoute priorityMap ifIndexOf lo route protocol = .ok
        { dest := some route.dest, mplsLabel := none, protocolId := protocol,
          priority := protocolToPriority priorityMap protocol, flags := 0,
          valid := true, routeType := some RTN_BLACKHOLE, nextHops := [] } := by
      simp [buildRoute, hempty]
    exact ⟨_, hok, rfl, rfl⟩
  · intro hne r hok
    simp only [buildRoute, List.isEmpty_iff] at hok
    rw [if_neg hne] at hok
    cases h1 : buildNextHopList ifIndexOf lo route.nextHops with
    | error e => rw [h1] at hok; exact absurd hok (by simp)
    | ok nhs =>
      rw [h1] at hok
      simp only [Except.ok.injEq] at hok
      subst hok
      have hlen := buildNextHopList_length ifIndexOf lo route.nextHops nhs h1
      refine ⟨rfl, ?_⟩
      intro hnil
      have hnil2 : nhs = [] := hnil
      rw [hnil2] at hlen
      exact hne (List.eq_nil_of_length_eq_zero hlen.symm)
  · intro hempty
    have hok : buildMplsRoute priorityMap ifIndexOf lo mroute protocol = .ok
        { dest := none, mplsLabel := some mroute.topLabel, protocolId := protocol,
          priority := protocolToPriority priorityMap protocol, flags := 0,
          valid := true, routeType := some RTN_BLACKHOLE, nextHops := [] } := by
      simp [buildMplsRoute, hempty]
    exact ⟨_, hok, rfl, rfl⟩
  · intro hne r hok
    simp only [buildMplsRoute, List.isEmpty_iff] at hok
    rw [if_neg hne] at hok
    cases h1 : buildNextHopList ifIndexOf lo mroute.nextHops with
    | error e => rw [h1] at hok; exact absurd hok (by simp)
    | ok nhs =>
      rw [h1] at hok
      simp only [Except.ok.injEq] at hok
      subst hok
      have hlen := buildNextHopList_length ifIndexOf lo mroute.nextHops nhs h1
      refine ⟨rfl, ?_⟩
      intro hnil
      have hnil2 : nhs = [] := hnil
      rw [hnil2] at hlen
      exact hne (List.eq_nil_of_length_eq_zero hlen.symm)

/-- C10 witness: the theorem applied at a concrete empty-next-hop unicast
route, a concrete one-next-hop unicast route, and likewise for mpls routes. -/
theorem c10_blackhole_on_empty_nexthops_witness :
    (∃ r, buildRoute [] (fun _ => none) none ⟨"10.0.0.0/8", []⟩ 99 = .ok r ∧
        r.routeType = some RTN_BLACKHOLE ∧ r.nextHops = []) ∧
    (∀ r, buildRoute [] (fun _ => none) none
        ⟨"10.0.0.0/8", [⟨⟨"fe80::1", none⟩, none⟩]⟩ 99 = .ok r →
        r.routeType = none ∧ r.nextHops ≠ []) ∧
    (∃ r, buildMplsRoute [] (fun _ => none) none ⟨100, []⟩ 99 = .ok r ∧
        r.routeType = some RTN_BLACKHOLE ∧ r.nextHops = []) ∧
    (∀ r, buildMplsRoute [] (fun _ => none) none
        ⟨100, [⟨⟨"fe80::1", none⟩, none⟩]⟩ 99 = .ok r →
        r.routeType = none ∧ r.nextHops ≠ []) := by
  have h := c10_blackhole_on_empty_nexthops [] (fun _ => none) none
    ⟨"10.0.0.0/8", []⟩ ⟨100, []⟩ 99
  have h2 := c10_blackhole_on_empty_nexthops [] (fun _ => none) none
    ⟨"10.0.0.0/8", [⟨⟨"fe80::1", none⟩, none⟩]⟩
    ⟨100, [⟨⟨"fe80::1", none⟩, none⟩]⟩ 99
  exact ⟨h.1 rfl, h2.2.1 (by simp), h.2.2.1 rfl, h2.2.2.2 (by simp)⟩

/-! ### Spark: structural lemmas about the neighbor table -/

theorem neighborTimerStep_events_key (now : Nat) (k : String × String) (n : Neighbor) :
    ∀ e ∈ (neighborTimerStep now k n).2, e.ifName = k.1 ∧ e.nodeName = k.2 := by
  intro e he
  unfold neighborTimerStep at he
  split_ifs at he <;> simp_all

theorem fireTimersList_append (now : Nat)
    (l1 l2 : List ((String × String) × Neighbor)) :
    fireTimersList now (l1 ++ l2) =
      ((fireTimersList now l1).1 ++ (fireTimersList now l2).1,
        (fireTimersList now l1).2 ++ (fireTimersList now l2).2) := by
  induction l1 with
  | nil => simp [fireTimersList]
  | cons kv rest ih =>
    obtain ⟨k, n⟩ := kv
    simp only [List.cons_append, fireTimersList, ih]
    cases h : (neighborTimerStep now k n).1 <;> simp [h, ih]

theorem fireTimersList_keys (now : Nat)
    (l : List ((String × String) × Neighbor)) :
    ∀ kv ∈ (fireTimersList now l).1, kv.1 ∈ l.map Prod.fst := by
  induction l with
  | nil => simp [fireTimersList]
  | cons hd rest ih =>
    obtain ⟨k, n⟩ := hd
    intro kv hkv
    simp only [fireTimersList] at hkv
    cases h : (neighborTimerStep now k n).1 with
    | none =>
      rw [h] at hkv
      simp only [List.map_cons, List.mem_cons]
      exact Or.inr (ih kv hkv)
    | some n2 =>
      rw [h] at hkv
      rcases List.mem_cons.mp hkv with heq | hmem
      · simp [heq]
      · simp only [List.map_cons, List.mem_cons]
        exact Or.inr (ih kv hmem)

theorem fireTimersList_events_key (now : Nat)
    (l : List ((String × String) × Neighbor)) :
    ∀ e ∈ (fireTimersList now l).2, (e.ifName, e.nodeName) ∈ l.map Prod.fst := by
  induction l with
  | nil => simp [fireTimersList]
  | cons hd rest ih =>
    obtain ⟨k, n⟩ := hd
    intro e he
    simp only [fireTimersList] at he
    have hsplit : e ∈ (neighborTimerStep now k n).2 ∨ e ∈ (fireTimersList now rest).2 := by
      cases h : (neighborTimerStep now k n).1 <;> rw [h] at he <;>
        exact List.mem_append.mp he
    rcases hsplit with h1 | h2
    · have := neighborTimerStep_events_key now k n e h1
      simp [this.1, this.2]
    · simp only [List.map_cons, List.mem_cons]
      exact Or.inr (ih e h2)

theorem eventsFor_eq_nil (ifName peer : String) (evs : List NeighborEvent)
    (h : ∀ e ∈ evs, ¬(e.ifName = ifName ∧ e.nodeName = peer)) :
    eventsFor ifName peer evs = [] := by
  unfold eventsFor
  rw [List.filter_eq_nil_iff]
  intro e he
  have := h e he
  simp only [Bool.and_eq_true, beq_iff_eq]
  tauto

theorem eventsFor_append (ifName peer : String) (l1 l2 : List NeighborEvent) :
    eventsFor ifName peer (l1 ++ l2) =
      eventsFor ifName peer l1 ++ eventsFor ifName peer l2 := by
  simp [eventsFor, List.filter_append]

theorem find?_key_decomp (pre post : List ((String × String) × Neighbor))
    (k : String × String) (n : Neighbor)
    (hpre : ∀ kv ∈ pre, kv.1 ≠ k) :
    (pre ++ (k, n) :: post).find? (fun kv => kv.1 == k) = some (k, n) := by
  induction pre with
  | nil => simp [List.find?]
  | cons hd rest ih =>
    have hne : hd.1 ≠ k := hpre hd (by simp)
    simp only [List.cons_append, List.find?]
    rw [show (hd.1 == k) = false by simpa using hne]
    exact ih (fun kv h => hpre kv (List.mem_cons_of_mem hd h))

theorem getNeighbor_decomp (st : SparkState)
    (pre post : List ((String × String) × Neighbor))
    (ifName peer : String) (n : Neighbor)
    (hst : st.neighbors = pre ++ ((ifName, peer), n) :: post)
    (hpre : ∀ kv ∈ pre, kv.1 ≠ (ifName, peer)) :
    getNeighbor st ifName peer = some n := by
  unfold getNeighbor
  rw [hst, find?_key_decomp pre post (ifName, peer) n hpre]
  rfl

theorem upsertNeighbor_decomp (pre post : List ((String × String) × Neighbor))
    (k : String × String) (n m : Neighbor)
    (hpre : ∀ kv ∈ pre, kv.1 ≠ k) :
    upsertNeighbor (pre ++ (k, n) :: post) k m = pre ++ (k, m) :: post := by
  induction pre with
  | nil => simp [upsertNeighbor]
  | cons hd rest ih =>
    have hne : hd.1 ≠ k := hpre hd (by simp)
    simp only [List.cons_append, upsertNeighbor, if_neg hne, List.append_eq]
    rw [ih (fun kv h => hpre kv (List.mem_cons_of_mem hd h))]

theorem helloNeighborStep_events_key (cfg : SparkConfig) (now : Nat)
    (k : String × String) (msg : HelloMsg) (n : Neighbor) :
    ∀ e ∈ (helloNeighborStep cfg now k msg n).2,
      e.ifName = k.1 ∧ e.nodeName = k.2 := by
  intro e he
  unfold helloNeighborStep at he
  split at he <;>
    first
      | (split_ifs at he <;> simp_all)
      | simp_all

theorem eventsFor_self (ifName peer : String) (evs : List NeighborEvent)
    (h : ∀ e ∈ evs, e.ifName = ifName ∧ e.nodeName = peer) :
    eventsFor ifName peer evs = evs := by
  unfold eventsFor
  rw [List.filter_eq_self]
  intro e he
  have := h e he
  simp [this.1, this.2]

theorem eventsFor_fireTimers_fresh (now : Nat)
    (l : List ((String × String) × Neighbor)) (ifName peer : String)
    (hfresh : ∀ kv ∈ l, kv.1 ≠ (ifName, peer)) :
    eventsFor ifName peer (fireTimersList now l).2 = [] := by
  apply eventsFor_eq_nil
  intro e he hc
  have hk := fireTimersList_events_key now l e he
  rw [hc.1, hc.2] at hk
  obtain ⟨kv, hkv, hkeq⟩ := List.mem_map.mp hk
  exact hfresh kv hkv hkeq

theorem fireTimersList_fresh (now : Nat)
    (l : List ((String × String) × Neighbor)) (k : String × String)
    (hfresh : ∀ kv ∈ l, kv.1 ≠ k) :
    ∀ kv ∈ (fireTimersList now l).1, kv.1 ≠ k := by
  intro kv hkv
  have := fireTimersList_keys now l kv hkv
  obtain ⟨kv2, hkv2, hkeq⟩ := List.mem_map.mp this
  rw [← hkeq]
  exact hfresh kv2 hkv2

/-- The timer pass over a decomposed neighbor table whose distinguished
entry has no expired timer: the entry survives unchanged, freshness is
preserved, and no event concerns the entry's key. -/
theorem fireTimersList_decomp (now : Nat)
    (pre post : List ((String × String) × Neighbor)) (k : String × String)
    (n n2 : Neighbor)
    (hpre : ∀ kv ∈ pre, kv.1 ≠ k) (hpost : ∀ kv ∈ post, kv.1 ≠ k)
    (ht : neighborTimerStep now k n = (some n2, [])) :
    (fireTimersList now (pre ++ (k, n) :: post)).1 =
      (fireTimersList now pre).1 ++ (k, n2) :: (fireTimersList now post).1 ∧
    (∀ kv ∈ (fireTimersList now pre).1, kv.1 ≠ k) ∧
    (∀ kv ∈ (fireTimersList now post).1, kv.1 ≠ k) ∧
    eventsFor k.1 k.2 (fireTimersList now (pre ++ (k, n) :: post)).2 = [] := by
  have hmid : fireTimersList now ((k, n) :: post) =
      ((k, n2) :: (fireTimersList now post).1, (fireTimersList now post).2) := by
    simp [fireTimersList, ht]
  have happ := fireTimersList_append now pre ((k, n) :: post)
  refine ⟨?_, fireTimersList_fresh now pre k hpre,
    fireTimersList_fresh now post k hpost, ?_⟩
  · rw [happ, hmid]
  · rw [happ, hmid]
    simp only [eventsFor_append]
    rw [eventsFor_fireTimers_fresh now pre k.1 k.2 (by simpa using hpre),
      eventsFor_fireTimers_fresh now post k.1 k.2 (by simpa using hpost)]
    simp

/-- One event-loop step processing a valid hello for a decomposed neighbor
whose timers are quiescent: the step applies exactly the per-neighbor
hello transition to the distinguished entry, and the events concerning its
key are exactly that transition's events. -/
theorem sparkStep_hello_decomp (cfg : SparkConfig) (st : SparkState) (now : Nat)
    (ifName : String) (msg : HelloMsg)
    (pre post : List ((String × String) × Neighbor)) (n n2 : Neighbor)
    (hst : st.neighbors = pre ++ ((ifName, msg.nodeName), n) :: post)
    (hpre : ∀ kv ∈ pre, kv.1 ≠ (ifName, msg.nodeName))
    (hpost : ∀ kv ∈ post, kv.1 ≠ (ifName, msg.nodeName))
    (hdom : msg.domain = cfg.domainName)
    (hself : msg.nodeName ≠ cfg.nodeName)
    (hif : (findIface st ifName).isSome = true)
    (ht : neighborTimerStep now (ifName, msg.nodeName) n = (some n2, [])) :
    (sparkStep cfg st now (.hello ifName msg)).1.ifaces = st.ifaces ∧
    (sparkStep cfg st now (.hello ifName msg)).1.neighbors =
      (fireTimersList now pre).1 ++
        ((ifName, msg.nodeName),
          (helloNeighborStep cfg now (ifName, msg.nodeName) msg n2).1) ::
        (fireTimersList now post).1 ∧
    (∀ kv ∈ (fireTimersList now pre).1, kv.1 ≠ (ifName, msg.nodeName)) ∧
    (∀ kv ∈ (fireTimersList now post).1, kv.1 ≠ (ifName, msg.nodeName)) ∧
    eventsFor ifName msg.nodeName (sparkStep cfg st now (.hello ifName msg)).2 =
      (helloNeighborStep cfg now (ifName, msg.nodeName) msg n2).2 := by
  obtain ⟨hfl, hfp, hfq, hfe⟩ :=
    fireTimersList_decomp now pre post (ifName, msg.nodeName) n n2 hpre hpost ht
  rw [← hst] at hfl hfe
  set st1 : SparkState := { st with neighbors := (fireTimersList now st.neighbors).1 }
    with hst1
  have hif1 : findIface st1 ifName = findIface st ifName := rfl
  have hg : getNeighbor st1 ifName msg.nodeName = some n2 :=
    getNeighbor_decomp st1 (fireTimersList now pre).1 (fireTimersList now post).1
      ifName msg.nodeName n2 hfl hfp
  obtain ⟨iface, hiface⟩ := Option.isSome_iff_exists.mp hif
  have hhello : handleHello cfg st1 now ifName msg =
      ({ st1 with
          neighbors := upsertNeighbor st1.neighbors (ifName, msg.nodeName)
            (helloNeighborStep cfg now (ifName, msg.nodeName) msg n2).1 },
        (helloNeighborStep cfg now (ifName, msg.nodeName) msg n2).2) := by
    unfold handleHello
    rw [if_neg (by simp [hdom]), if_neg hself, hif1, hiface, hg]
  have hup : upsertNeighbor st1.neighbors (ifName, msg.nodeName)
      (helloNeighborStep cfg now (ifName, msg.nodeName) msg n2).1 =
      (fireTimersList now pre).1 ++
        ((ifName, msg.nodeName),
          (helloNeighborStep cfg now (ifName, msg.nodeName) msg n2).1) ::
        (fireTimersList now post).1 := by
    have : st1.neighbors = (fireTimersList now pre).1 ++
        ((ifName, msg.nodeName), n2) :: (fireTimersList now post).1 := hfl
    rw [this]
    exact upsertNeighbor_decomp _ _ _ _ _ hfp
  have hstep : sparkStep cfg st now (.hello ifName msg) =
      ({ st1 with
          neighbors := upsertNeighbor st1.neighbors (ifName, msg.nodeName)
            (helloNeighborStep cfg now (ifName, msg.nodeName) msg n2).1 },
        (fireTimersList now st.neighbors).2 ++
          (helloNeighborStep cfg now (ifName, msg.nodeName) msg n2).2) := by
    simp only [sparkStep, handleInput]
    rw [← hst1, hhello]
  rw [hstep]
  refine ⟨rfl, hup, hfp, hfq, ?_⟩
  rw [eventsFor_append, hfe, List.nil_append]
  exact eventsFor_self _ _ _
    (helloNeighborStep_events_key cfg now (ifName, msg.nodeName) msg n2)

theorem getNeighbor_fresh (st : SparkState) (ifName peer : String)
    (h : ∀ kv ∈ st.neighbors, kv.1 ≠ (ifName, peer)) :
    getNeighbor st ifName peer = none := by
  unfold getNeighbor
  rw [List.find?_eq_none.mpr]
  · rfl
  · intro kv hkv
    simpa using h kv hkv

/-- One pure time step for a decomposed neighbor table whose distinguished
entry has no expired timer: the entry survives unchanged and no event
concerns its key. -/
theorem sparkStep_advance_decomp (cfg : SparkConfig) (st : SparkState) (now : Nat)
    (pre post : List ((String × String) × Neighbor)) (k : String × String)
    (n n2 : Neighbor)
    (hst : st.neighbors = pre ++ (k, n) :: post)
    (hpre : ∀ kv ∈ pre, kv.1 ≠ k) (hpost : ∀ kv ∈ post, kv.1 ≠ k)
    (ht : neighborTimerStep now k n = (some n2, [])) :
    (sparkStep cfg st now .advance).1.ifaces = st.ifaces ∧
    (sparkStep cfg st now .advance).1.neighbors =
      (fireTimersList now pre).1 ++ (k, n2) :: (fireTimersList now post).1 ∧
    (∀ kv ∈ (fireTimersList now pre).1, kv.1 ≠ k) ∧
    (∀ kv ∈ (fireTimersList now post).1, kv.1 ≠ k) ∧
    eventsFor k.1 k.2 (sparkStep cfg st now .advance).2 = [] := by
  obtain ⟨hfl, hfp, hfq, hfe⟩ := fireTimersList_decomp now pre post k n n2 hpre hpost ht
  rw [← hst] at hfl hfe
  refine ⟨by simp [sparkStep, handleInput], ?_, hfp, hfq, ?_⟩
  · simpa [sparkStep, handleInput] using hfl
  · simpa [sparkStep, handleInput] using hfe

/-- The timer pass over a decomposed neighbor table whose distinguished
entry fires a removing timer: the entry is gone from the table and the
events concerning its key are exactly the removal's DOWN event. -/
theorem fireTimersList_decomp_remove (now : Nat)
    (pre post : List ((String × String) × Neighbor)) (k : String × String)
    (n : Neighbor) (ev : NeighborEvent)
    (hpre : ∀ kv ∈ pre, kv.1 ≠ k) (hpost : ∀ kv ∈ post, kv.1 ≠ k)
    (ht : neighborTimerStep now k n = (none, [ev]))
    (hev : ev.ifName = k.1 ∧ ev.nodeName = k.2) :
    (fireTimersList now (pre ++ (k, n) :: post)).1 =
      (fireTimersList now pre).1 ++ (fireTimersList now post).1 ∧
    eventsFor k.1 k.2 (fireTimersList now (pre ++ (k, n) :: post)).2 = [ev] := by
  have hmid : fireTimersList now ((k, n) :: post) =
      ((fireTimersList now post).1, ev :: (fireTimersList now post).2) := by
    simp [fireTimersList, ht]
  have happ := fireTimersList_append now pre ((k, n) :: post)
  constructor
  · rw [happ, hmid]
  · rw [happ, hmid]
    simp only [eventsFor_append]
    rw [eventsFor_fireTimers_fresh now pre k.1 k.2 (by simpa using hpre)]
    have : eventsFor k.1 k.2 (ev :: (fireTimersList now post).2) =
        ev :: eventsFor k.1 k.2 (fireTimersList now post).2 := by
      simp [eventsFor, List.filter, hev.1, hev.2]
    rw [this, eventsFor_fireTimers_fresh now post k.1 k.2 (by simpa using hpost)]
    simp

/-- One pure time step for a decomposed neighbor table whose distinguished
entry fires a removing timer: the entry is removed and the events for its
key are exactly the single DOWN event. -/
theorem sparkStep_advance_remove (cfg : SparkConfig) (st : SparkState) (now : Nat)
    (pre post : List ((String × String) × Neighbor)) (k : String × String)
    (n : Neighbor) (ev : NeighborEvent)
    (hst : st.neighbors = pre ++ (k, n) :: post)
    (hpre : ∀ kv ∈ pre, kv.1 ≠ k) (hpost : ∀ kv ∈ post, kv.1 ≠ k)
    (ht : neighborTimerStep now k n = (none, [ev]))
    (hev : ev.ifName = k.1 ∧ ev.nodeName = k.2) :
    (sparkStep cfg st now .advance).1.neighbors =
      (fireTimersList now pre).1 ++ (fireTimersList now post).1 ∧
    getNeighbor (sparkStep cfg st now .advance).1 k.1 k.2 = none ∧
    eventsFor k.1 k.2 (sparkStep cfg st now .advance).2 = [ev] := by
  obtain ⟨hfl, hfe⟩ :=
    fireTimersList_decomp_remove now pre post k n ev hpre hpost ht hev
  rw [← hst] at hfl hfe
  simp only [sparkStep, handleInput]
  refine ⟨hfl, ?_, by simpa using hfe⟩
  apply getNeighbor_fresh
  intro kv hkv
  simp only [hfl] at hkv
  rcases List.mem_append.mp hkv with h1 | h2
  · exact fireTimersList_fresh now pre k hpre kv h1
  · exact fireTimersList_fresh now post k hpost kv h2

theorem handshakeNeighborStep_events_key (cfg : SparkConfig) (now : Nat)
    (iface : InterfaceRecord) (k : String × String) (msg : HandshakeMsg)
    (n : Neighbor) :
    ∀ e ∈ (handshakeNeighborStep cfg now iface k msg n).2,
      e.ifName = k.1 ∧ e.nodeName = k.2 := by
  intro e he
  unfold handshakeNeighborStep at he
  split at he <;>
    first
      | (split at he <;>
          first
            | (split_ifs at he <;> simp_all)
            | simp_all)
      | simp_all

/-- One event-loop step processing a valid handshake for a decomposed
neighbor whose timers are quiescent: the step applies exactly the
per-neighbor handshake transition, and the events concerning the key are
exactly that transition's events. -/
theorem sparkStep_handshake_decomp (cfg : SparkConfig) (st : SparkState)
    (now : Nat) (ifName : String) (msg : HandshakeMsg)
    (pre post : List ((String × String) × Neighbor)) (n n2 : Neighbor)
    (iface : InterfaceRecord)
    (hst : st.neighbors = pre ++ ((ifName, msg.nodeName), n) :: post)
    (hpre : ∀ kv ∈ pre, kv.1 ≠ (ifName, msg.nodeName))
    (hpost : ∀ kv ∈ post, kv.1 ≠ (ifName, msg.nodeName))
    (hdom : msg.domain = cfg.domainName)
    (hself : msg.nodeName ≠ cfg.nodeName)
    (haddr : msg.neighborNodeName = cfg.nodeName)
    (hiface : findIface st ifName = some iface)
    (ht : neighborTimerStep now (ifName, msg.nodeName) n = (some n2, [])) :
    (sparkStep cfg st now (.handshake ifName msg)).1.ifaces = st.ifaces ∧
    (sparkStep cfg st now (.handshake ifName msg)).1.neighbors =
      (fireTimersList now pre).1 ++
        ((ifName, msg.nodeName),
          (handshakeNeighborStep cfg now iface (ifName, msg.nodeName) msg n2).1) ::
        (fireTimersList now post).1 ∧
    (∀ kv ∈ (fireTimersList now pre).1, kv.1 ≠ (ifName, msg.nodeName)) ∧
    (∀ kv ∈ (fireTimersList now post).1, kv.1 ≠ (ifName, msg.nodeName)) ∧
    eventsFor ifName msg.nodeName (sparkStep cfg st now (.handshake ifName msg)).2 =
      (handshakeNeighborStep cfg now iface (ifName, msg.nodeName) msg n2).2 := by
  obtain ⟨hfl, hfp, hfq, hfe⟩ :=
    fireTimersList_decomp now pre post (ifName, msg.nodeName) n n2 hpre hpost ht
  rw [← hst] at hfl hfe
  set st1 : SparkState := { st with neighbors := (fireTimersList now st.neighbors).1 }
    with hst1
  have hif1 : findIface st1 ifName = findIface st ifName := rfl
  have hg : getNeighbor st1 ifName msg.nodeName = some n2 :=
    getNeighbor_decomp st1 (fireTimersList now pre).1 (fireTimersList now post).1
      ifName msg.nodeName n2 hfl hfp
  have hhs : handleHandshake cfg st1 now ifName msg =
      ({ st1 with
          neighbors := upsertNeighbor st1.neighbors (ifName, msg.nodeName)
            (handshakeNeighborStep cfg now iface (ifName, msg.nodeName) msg n2).1 },
        (handshakeNeighborStep cfg now iface (ifName, msg.nodeName) msg n2).2) := by
    unfold handleHandshake
    rw [if_neg (by simp [hdom]), if_neg hself, if_neg (by simp [haddr]),
      hif1, hiface, hg]
  have hup : upsertNeighbor st1.neighbors (ifName, msg.nodeName)
      (handshakeNeighborStep cfg now iface (ifName, msg.nodeName) msg n2).1 =
      (fireTimersList now pre).1 ++
        ((ifName, msg.nodeName),
          (handshakeNeighborStep cfg now iface (ifName, msg.nodeName) msg n2).1) ::
        (fireTimersList now post).1 := by
    have h2 : st1.neighbors = (fireTimersList now pre).1 ++
        ((ifName, msg.nodeName), n2) :: (fireTimersList now post).1 := hfl
    rw [h2]
    exact upsertNeighbor_decomp _ _ _ _ _ hfp
  have hstep : sparkStep cfg st now (.handshake ifName msg) =
      ({ st1 with
          neighbors := upsertNeighbor st1.neighbors (ifName, msg.nodeName)
            (handshakeNeighborStep cfg now iface (ifName, msg.nodeName) msg n2).1 },
        (fireTimersList now st.neighbors).2 ++
          (handshakeNeighborStep cfg now iface (ifName, msg.nodeName) msg n2).2) := by
    simp only [sparkStep, handleInput]
    rw [← hst1, hhs]
  rw [hstep]
  refine ⟨rfl, hup, hfp, hfq, ?_⟩
  rw [eventsFor_append, hfe, List.nil_append]
  exact eventsFor_self _ _ _
    (handshakeNeighborStep_events_key cfg now iface (ifName, msg.nodeName) msg n2)

/-! ### The claims -/

/-- C1: for every ESTABLISHED neighbor whose peer advertises
restarting=true (at time t0) and then resumes sending hellos with a reset
sequence space (at time t1, within the peer-advertised grHoldMs window),
the event sequence emitted for that neighbor is exactly RESTARTING
followed by RESTARTED, with no DOWN and no fresh UP in between, and the
adjacency continues (the neighbor is still ESTABLISHED). -/
theorem c1_gr_window_restarting_restarted (cfg : SparkConfig) (st : SparkState)
    (ifName peer : String)
    (pre post : List ((String × String) × Neighbor)) (n : Neighbor)
    (t0 t1 : Nat) (msg1 msg2 : HelloMsg)
    (hst : st.neighbors = pre ++ ((ifName, peer), n) :: post)
    (hpre : ∀ kv ∈ pre, kv.1 ≠ (ifName, peer))
    (hpost : ∀ kv ∈ post, kv.1 ≠ (ifName, peer))
    (hstate : n.state = .ESTABLISHED) (hflag : n.restartFlag = false)
    (hhb : deadlineReached n.heartbeatDeadline t0 = false)
    (hif : (findIface st ifName).isSome = true)
    (hd1 : msg1.domain = cfg.domainName) (hn1 : msg1.nodeName = peer)
    (hs1 : peer ≠ cfg.nodeName) (hr1 : msg1.restarting = true)
    (hd2 : msg2.domain = cfg.domainName) (hn2 : msg2.nodeName = peer)
    (hseq : msg2.seqNum < msg1.seqNum)
    (hwin : t1 < t0 + n.grHoldMs) :
    eventsFor ifName peer
      (sparkRun cfg st [(t0, .hello ifName msg1), (t1, .hello ifName msg2)]).2 =
      [⟨.RESTARTING, ifName, peer, n.area⟩, ⟨.RESTARTED, ifName, peer, n.area⟩] ∧
    getSparkNeighState
      (sparkRun cfg st [(t0, .hello ifName msg1), (t1, .hello ifName msg2)]).1
      ifName peer = some .ESTABLISHED := by
  subst hn1
  have hs1' : msg1.nodeName ≠ cfg.nodeName := hs1
  have ht1 : neighborTimerStep t0 (ifName, msg1.nodeName) n = (some n, []) := by
    simp [neighborTimerStep, hstate, hflag, hhb]
  obtain ⟨hifa1, hnb1, hfp1, hfq1, hev1⟩ :=
    sparkStep_hello_decomp cfg st t0 ifName msg1 pre post n n hst hpre hpost
      hd1 hs1' hif ht1
  set n1 : Neighbor := { n with
    restartFlag := true, remoteSeqNum := msg1.seqNum,
    grDeadline := some (t0 + n.grHoldMs), heartbeatDeadline := none } with hn1def
  have hstep1 : helloNeighborStep cfg t0 (ifName, msg1.nodeName) msg1 n =
      (n1, [⟨.RESTARTING, ifName, msg1.nodeName, n.area⟩]) := by
    simp [helloNeighborStep, hstate, hflag, hr1, hn1def]
  rw [hstep1] at hnb1 hev1
  set st1 : SparkState := (sparkStep cfg st t0 (.hello ifName msg1)).1 with hst1
  have hgr : ¬ (t0 + n.grHoldMs ≤ t1) := by omega
  have ht2 : neighborTimerStep t1 (ifName, msg2.nodeName) n1 = (some n1, []) := by
    simp [neighborTimerStep, hn1def, hstate, deadlineReached, hgr]
  have hnb1' : st1.neighbors = (fireTimersList t0 pre).1 ++
      ((ifName, msg2.nodeName), n1) :: (fireTimersList t0 post).1 := by
    rw [hn2]; exact hnb1
  have hfp1' : ∀ kv ∈ (fireTimersList t0 pre).1, kv.1 ≠ (ifName, msg2.nodeName) := by
    rw [hn2]; exact hfp1
  have hfq1' : ∀ kv ∈ (fireTimersList t0 post).1, kv.1 ≠ (ifName, msg2.nodeName) := by
    rw [hn2]; exact hfq1
  have hs2' : msg2.nodeName ≠ cfg.nodeName := by rw [hn2]; exact hs1
  have hif2 : (findIface st1 ifName).isSome = true := by
    unfold findIface
    rw [hifa1]
    exact hif
  obtain ⟨hifa2, hnb2, hfp2, hfq2, hev2⟩ :=
    sparkStep_hello_decomp cfg st1 t1 ifName msg2 _ _ n1 n1 hnb1' hfp1' hfq1'
      hd2 hs2' hif2 ht2
  have hstep2 : helloNeighborStep cfg t1 (ifName, msg2.nodeName) msg2 n1 =
      ({ n1 with
          restartFlag := false, remoteSeqNum := msg2.seqNum, grDeadline := none,
          heartbeatDeadline := some (t1 + n.heartbeatHoldMs) },
        [⟨.RESTARTED, ifName, msg2.nodeName, n.area⟩]) := by
    simp [helloNeighborStep, hn1def, hstate, hseq]
  rw [hstep2] at hnb2 hev2
  have hrun : sparkRun cfg st [(t0, .hello ifName msg1), (t1, .hello ifName msg2)] =
      ((sparkStep cfg st1 t1 (.hello ifName msg2)).1,
        (sparkStep cfg st t0 (.hello ifName msg1)).2 ++
          ((sparkStep cfg st1 t1 (.hello ifName msg2)).2 ++ [])) := by
    simp [sparkRun, hst1]
  rw [hrun]
  constructor
  · rw [eventsFor_append, eventsFor_append, hev1]
    rw [hn2] at hev2
    rw [hev2]
    simp [eventsFor]
  · have := getNeighbor_decomp (sparkStep cfg st1 t1 (.hello ifName msg2)).1
      _ _ ifName msg2.nodeName _ hnb2 hfp2
    unfold getSparkNeighState
    rw [hn2] at this
    rw [this]
    simp [hn1def, hstate]

/-- C2: for every ESTABLISHED neighbor whose peer advertises
restarting=true (at time t0) and never returns, the event sequence emitted
is RESTARTING followed by DOWN, and the DOWN is driven by the GR hold
timer armed at t0 + grHoldMs (the heartbeat hold is suspended by the
restarting hello): a time step at any T at or past t0 + grHoldMs emits the
DOWN and removes the neighbor, while at any T2 before t0 + grHoldMs no
DOWN has been emitted; hence the DOWN delay Δ satisfies grHoldMs ≤ Δ, and
the earliest firing is at Δ = grHoldMs ≤ grHoldMs + heartbeatHoldMs. -/
theorem c2_gr_timeout_down (cfg : SparkConfig) (st : SparkState)
    (ifName peer : String)
    (pre post : List ((String × String) × Neighbor)) (n : Neighbor)
    (t0 T T2 : Nat) (msg1 : HelloMsg)
    (hst : st.neighbors = pre ++ ((ifName, peer), n) :: post)
    (hpre : ∀ kv ∈ pre, kv.1 ≠ (ifName, peer))
    (hpost : ∀ kv ∈ post, kv.1 ≠ (ifName, peer))
    (hstate : n.state = .ESTABLISHED) (hflag : n.restartFlag = false)
    (hhb : deadlineReached n.heartbeatDeadline t0 = false)
    (hif : (findIface st ifName).isSome = true)
    (hd1 : msg1.domain = cfg.domainName) (hn1 : msg1.nodeName = peer)
    (hs1 : peer ≠ cfg.nodeName) (hr1 : msg1.restarting = true)
    (hT : t0 + n.grHoldMs ≤ T) (hT2 : T2 < t0 + n.grHoldMs) :
    eventsFor ifName peer
      (sparkRun cfg st [(t0, .hello ifName msg1), (T, .advance)]).2 =
      [⟨.RESTARTING, ifName, peer, n.area⟩, ⟨.DOWN, ifName, peer, n.area⟩] ∧
    getSparkNeighState
      (sparkRun cfg st [(t0, .hello ifName msg1), (T, .advance)]).1
      ifName peer = none ∧
    eventsFor ifName peer
      (sparkRun cfg st [(t0, .hello ifName msg1), (T2, .advance)]).2 =
      [⟨.RESTARTING, ifName, peer, n.area⟩] := by
  subst hn1
  have ht1 : neighborTimerStep t0 (ifName, msg1.nodeName) n = (some n, []) := by
    simp [neighborTimerStep, hstate, hflag, hhb]
  obtain ⟨hifa1, hnb1, hfp1, hfq1, hev1⟩ :=
    sparkStep_hello_decomp cfg st t0 ifName msg1 pre post n n hst hpre hpost
      hd1 hs1 hif ht1
  set n1 : Neighbor := { n with
    restartFlag := true, remoteSeqNum := msg1.seqNum,
    grDeadline := some (t0 + n.grHoldMs), heartbeatDeadline := none } with hn1def
  have hstep1 : helloNeighborStep cfg t0 (ifName, msg1.nodeName) msg1 n =
      (n1, [⟨.RESTARTING, ifName, msg1.nodeName, n.area⟩]) := by
    simp [helloNeighborStep, hstate, hflag, hr1, hn1def]
  rw [hstep1] at hnb1 hev1
  set st1 : SparkState := (sparkStep cfg st t0 (.hello ifName msg1)).1 with hst1
  refine ⟨?_, ?_, ?_⟩
  · have htT : neighborTimerStep T (ifName, msg1.nodeName) n1 =
        (none, [⟨.DOWN, ifName, msg1.nodeName, n.area⟩]) := by
      simp [neighborTimerStep, hn1def, hstate, deadlineReached, hT]
    obtain ⟨hnbT, hgT, hevT⟩ :=
      sparkStep_advance_remove cfg st1 T _ _ (ifName, msg1.nodeName) n1
        ⟨.DOWN, ifName, msg1.nodeName, n.area⟩ hnb1 hfp1 hfq1 htT ⟨rfl, rfl⟩
    have hrun : sparkRun cfg st [(t0, .hello ifName msg1), (T, .advance)] =
        ((sparkStep cfg st1 T .advance).1,
          (sparkStep cfg st t0 (.hello ifName msg1)).2 ++
            ((sparkStep cfg st1 T .advance).2 ++ [])) := by
      simp [sparkRun, hst1]
    rw [hrun, eventsFor_append, eventsFor_append, hev1, hevT]
    simp [eventsFor]
  · have htT : neighborTimerStep T (ifName, msg1.nodeName) n1 =
        (none, [⟨.DOWN, ifName, msg1.nodeName, n.area⟩]) := by
      simp [neighborTimerStep, hn1def, hstate, deadlineReached, hT]
    obtain ⟨hnbT, hgT, hevT⟩ :=
      sparkStep_advance_remove cfg st1 T _ _ (ifName, msg1.nodeName) n1
        ⟨.DOWN, ifName, msg1.nodeName, n.area⟩ hnb1 hfp1 hfq1 htT ⟨rfl, rfl⟩
    have hrun : sparkRun cfg st [(t0, .hello ifName msg1), (T, .advance)] =
        ((sparkStep cfg st1 T .advance).1,
          (sparkStep cfg st t0 (.hello ifName msg1)).2 ++
            ((sparkStep cfg st1 T .advance).2 ++ [])) := by
      simp [sparkRun, hst1]
    rw [hrun]
    unfold getSparkNeighState
    rw [hgT]
    rfl
  · have hgr2 : ¬ (t0 + n.grHoldMs ≤ T2) := by omega
    have htT2 : neighborTimerStep T2 (ifName, msg1.nodeName) n1 = (some n1, []) := by
      simp [neighborTimerStep, hn1def, hstate, deadlineReached, hgr2]
    obtain ⟨hifaT2, hnbT2, hfpT2, hfqT2, hevT2⟩ :=
      sparkStep_advance_decomp cfg st1 T2 _ _ (ifName, msg1.nodeName) n1 n1
        hnb1 hfp1 hfq1 htT2
    have hrun : sparkRun cfg st [(t0, .hello ifName msg1), (T2, .advance)] =
        ((sparkStep cfg st1 T2 .advance).1,
          (sparkStep cfg st t0 (.hello ifName msg1)).2 ++
            ((sparkStep cfg st1 T2 .advance).2 ++ [])) := by
      simp [sparkRun, hst1]
    rw [hrun, eventsFor_append, eventsFor_append, hev1, hevT2]
    simp [eventsFor]

/-- C3: for every ESTABLISHED neighbor outside graceful restart whose
heartbeat hold (armed at the last received heartbeat or hello at tLast,
for the peer-advertised heartbeatHoldMs) is never refreshed, a time step
at any T at or past the deadline — in particular any T within
tLast + 2·heartbeatHoldMs — emits DOWN and removes the neighbor, while at
any T2 before the deadline nothing is emitted; the DOWN delay
Δ = T − tLast therefore satisfies heartbeatHoldMs ≤ Δ ≤ 2·heartbeatHoldMs
≤ grHoldMs under the configured relation 2·heartbeatHoldMs ≤ grHoldMs
(500 ≥ 2·200 in the tests), covering both sides of a cut link. -/
theorem c3_heartbeat_timeout_down (cfg : SparkConfig) (st : SparkState)
    (ifName peer : String)
    (pre post : List ((String × String) × Neighbor)) (n : Neighbor)
    (tLast T T2 : Nat)
    (hst : st.neighbors = pre ++ ((ifName, peer), n) :: post)
    (hpre : ∀ kv ∈ pre, kv.1 ≠ (ifName, peer))
    (hpost : ∀ kv ∈ post, kv.1 ≠ (ifName, peer))
    (hstate : n.state = .ESTABLISHED) (hflag : n.restartFlag = false)
    (hdl : n.heartbeatDeadline = some (tLast + n.heartbeatHoldMs))
    (hT1 : tLast + n.heartbeatHoldMs ≤ T)
    (hT2 : T ≤ tLast + 2 * n.heartbeatHoldMs)
    (hTb : T2 < tLast + n.heartbeatHoldMs)
    (hgr : 2 * n.heartbeatHoldMs ≤ n.grHoldMs) :
    eventsFor ifName peer (sparkRun cfg st [(T, .advance)]).2 =
      [⟨.DOWN, ifName, peer, n.area⟩] ∧
    getSparkNeighState (sparkRun cfg st [(T, .advance)]).1 ifName peer = none ∧
    eventsFor ifName peer (sparkRun cfg st [(T2, .advance)]).2 = [] ∧
    n.heartbeatHoldMs ≤ T - tLast ∧ T - tLast ≤ 2 * n.heartbeatHoldMs ∧
    T - tLast ≤ n.grHoldMs := by
  refine ⟨?_, ?_, ?_, by omega, by omega, by omega⟩
  · have htT : neighborTimerStep T (ifName, peer) n =
        (none, [⟨.DOWN, ifName, peer, n.area⟩]) := by
      simp [neighborTimerStep, hstate, hflag, hdl, deadlineReached, hT1]
    obtain ⟨hnbT, hgT, hevT⟩ :=
      sparkStep_advance_remove cfg st T _ _ (ifName, peer) n
        ⟨.DOWN, ifName, peer, n.area⟩ hst hpre hpost htT ⟨rfl, rfl⟩
    have hrun : sparkRun cfg st [(T, .advance)] =
        ((sparkStep cfg st T .advance).1, (sparkStep cfg st T .advance).2 ++ []) := by
      simp [sparkRun]
    rw [hrun, eventsFor_append, hevT]
    simp [eventsFor]
  · have htT : neighborTimerStep T (ifName, peer) n =
        (none, [⟨.DOWN, ifName, peer, n.area⟩]) := by
      simp [neighborTimerStep, hstate, hflag, hdl, deadlineReached, hT1]
    obtain ⟨hnbT, hgT, hevT⟩ :=
      sparkStep_advance_remove cfg st T _ _ (ifName, peer) n
        ⟨.DOWN, ifName, peer, n.area⟩ hst hpre hpost htT ⟨rfl, rfl⟩
    have hrun : sparkRun cfg st [(T, .advance)] =
        ((sparkStep cfg st T .advance).1, (sparkStep cfg st T .advance).2 ++ []) := by
      simp [sparkRun]
    rw [hrun]
    unfold getSparkNeighState
    rw [show getNeighbor ((sparkStep cfg st T .advance).1,
        (sparkStep cfg st T .advance).2 ++ []).1 ifName peer = none from hgT]
    rfl
  · have hb2 : ¬ (tLast + n.heartbeatHoldMs ≤ T2) := by omega
    have htT2 : neighborTimerStep T2 (ifName, peer) n = (some n, []) := by
      simp [neighborTimerStep, hstate, hflag, hdl, deadlineReached, hb2]
    obtain ⟨hifaT2, hnbT2, hfpT2, hfqT2, hevT2⟩ :=
      sparkStep_advance_decomp cfg st T2 _ _ (ifName, peer) n n hst hpre hpost htT2
    have hrun : sparkRun cfg st [(T2, .advance)] =
        ((sparkStep cfg st T2 .advance).1, (sparkStep cfg st T2 .advance).2 ++ []) := by
      simp [sparkRun]
    rw [hrun, eventsFor_append, hevT2]
    simp [eventsFor]

theorem handleHello_drop (cfg : SparkConfig) (st : SparkState) (now : Nat)
    (ifName : String) (msg : HelloMsg)
    (h : msg.domain ≠ cfg.domainName ∨ msg.nodeName = cfg.nodeName) :
    handleHello cfg st now ifName msg = (st, []) := by
  unfold handleHello
  rcases h with h | h
  · rw [if_pos h]
  · by_cases hd : msg.domain ≠ cfg.domainName
    · rw [if_pos hd]
    · rw [if_neg hd, if_pos h]

theorem handleHandshake_drop (cfg : SparkConfig) (st : SparkState) (now : Nat)
    (ifName : String) (msg : HandshakeMsg)
    (h : msg.domain ≠ cfg.domainName ∨ msg.nodeName = cfg.nodeName) :
    handleHandshake cfg st now ifName msg = (st, []) := by
  unfold handleHandshake
  rcases h with h | h
  · rw [if_pos h]
  · by_cases hd : msg.domain ≠ cfg.domainName
    · rw [if_pos hd]
    · rw [if_neg hd, if_pos h]

theorem handleHeartbeat_drop (cfg : SparkConfig) (st : SparkState) (now : Nat)
    (ifName : String) (msg : HeartbeatMsg)
    (h : msg.domain ≠ cfg.domainName ∨ msg.nodeName = cfg.nodeName) :
    handleHeartbeat cfg st now ifName msg = (st, []) := by
  unfold handleHeartbeat
  rcases h with h | h
  · rw [if_pos h]
  · by_cases hd : msg.domain ≠ cfg.domainName
    · rw [if_pos hd]
    · rw [if_neg hd, if_pos h]

/-- A run of inputs that every state handles silently (each input returns
the state unchanged with no events) never creates the watched neighbor
table entry and never emits an event for the watched key: only timers of
pre-existing other neighbors can act, and those never touch a fresh key. -/
theorem sparkRun_silent_inputs (cfg : SparkConfig) (ifName peer : String) :
    ∀ (trace : List (Nat × SparkInput)) (st : SparkState),
      (∀ kv ∈ st.neighbors, kv.1 ≠ (ifName, peer)) →
      (∀ ti ∈ trace, ∀ (s : SparkState) (now : Nat),
        handleInput cfg s now ti.2 = (s, [])) →
      (∀ kv ∈ (sparkRun cfg st trace).1.neighbors, kv.1 ≠ (ifName, peer)) ∧
      eventsFor ifName peer (sparkRun cfg st trace).2 = [] := by
  intro trace
  induction trace with
  | nil =>
    intro st h _
    exact ⟨h, by simp [sparkRun, eventsFor]⟩
  | cons ti rest ih =>
    obtain ⟨t, i⟩ := ti
    intro st hfresh htr
    have hstep : sparkStep cfg st t i =
        ({ st with neighbors := (fireTimersList t st.neighbors).1 },
          (fireTimersList t st.neighbors).2 ++ []) := by
      simp only [sparkStep]
      rw [htr (t, i) (by simp) _ t]
    have hfresh1 : ∀ kv ∈ (fireTimersList t st.neighbors).1,
        kv.1 ≠ (ifName, peer) :=
      fireTimersList_fresh t st.neighbors _ hfresh
    have hrest := ih { st with neighbors := (fireTimersList t st.neighbors).1 }
      hfresh1 (fun ti2 h2 => htr ti2 (List.mem_cons_of_mem _ h2))
    have hrun : sparkRun cfg st ((t, i) :: rest) =
        ((sparkRun cfg { st with neighbors := (fireTimersList t st.neighbors).1 }
            rest).1,
          ((fireTimersList t st.neighbors).2 ++ []) ++
            (sparkRun cfg { st with neighbors := (fireTimersList t st.neighbors).1 }
              rest).2) := by
      simp [sparkRun, hstep]
    rw [hrun]
    refine ⟨hrest.1, ?_⟩
    rw [eventsFor_append, hrest.2, eventsFor_append]
    rw [eventsFor_fireTimers_fresh t st.neighbors ifName peer
      (by simpa using hfresh)]
    simp [eventsFor]

/-- C5: a packet (hello, handshake or heartbeat) whose domain differs from
the local domain is dropped before any further processing: the handler
leaves the state untouched and emits nothing; consequently over any trace
of domain-mismatched packets no neighbor table entry is created for the
sending peer (getSparkNeighState stays absent) and no neighbor event of
any type is ever emitted for that peer. -/
theorem c5_domain_mismatch_drop (cfg : SparkConfig) (st : SparkState)
    (trace : List (Nat × SparkInput)) (ifName peer ifN : String) (now : Nat)
    (msgH : HelloMsg) (msgS : HandshakeMsg) (msgB : HeartbeatMsg)
    (hH : msgH.domain ≠ cfg.domainName)
    (hS : msgS.domain ≠ cfg.domainName)
    (hB : msgB.domain ≠ cfg.domainName)
    (hfresh : ∀ kv ∈ st.neighbors, kv.1 ≠ (ifName, peer))
    (htrace : ∀ ti ∈ trace, domainMismatchInput cfg ti.2) :
    handleHello cfg st now ifN msgH = (st, []) ∧
    handleHandshake cfg st now ifN msgS = (st, []) ∧
    handleHeartbeat cfg st now ifN msgB = (st, []) ∧
    getSparkNeighState (sparkRun cfg st trace).1 ifName peer = none ∧
    eventsFor ifName peer (sparkRun cfg st trace).2 = [] := by
  have hsilent : ∀ ti ∈ trace, ∀ (s : SparkState) (now2 : Nat),
      handleInput cfg s now2 ti.2 = (s, []) := by
    intro ti hti s now2
    have := htrace ti hti
    cases hi : ti.2 <;> rw [hi] at this <;>
      simp only [domainMismatchInput] at this
    · exact handleHello_drop cfg s now2 _ _ (Or.inl this)
    · exact handleHandshake_drop cfg s now2 _ _ (Or.inl this)
    · exact handleHeartbeat_drop cfg s now2 _ _ (Or.inl this)
  obtain ⟨hk, he⟩ := sparkRun_silent_inputs cfg ifName peer trace st hfresh hsilent
  refine ⟨handleHello_drop cfg st now ifN msgH (Or.inl hH),
    handleHandshake_drop cfg st now ifN msgS (Or.inl hS),
    handleHeartbeat_drop cfg st now ifN msgB (Or.inl hB), ?_, he⟩
  unfold getSparkNeighState
  rw [getNeighbor_fresh _ _ _ hk]
  rfl

/-- C8: a received hello (or handshake or heartbeat) whose nodeName equals
the local nodeName — a self-looped packet — is dropped: the handler leaves
the state untouched and emits nothing; consequently over any trace of
self-looped packets no neighbor table entry is ever created for the local
nodeName (getSparkNeighState returns absent) and no neighbor event is ever
emitted for it. -/
theorem c8_self_loop_drop (cfg : SparkConfig) (st : SparkState)
    (trace : List (Nat × SparkInput)) (ifName ifN : String) (now : Nat)
    (msgH : HelloMsg)
    (hH : msgH.nodeName = cfg.nodeName)
    (hfresh : ∀ kv ∈ st.neighbors, kv.1 ≠ (ifName, cfg.nodeName))
    (htrace : ∀ ti ∈ trace, selfLoopInput cfg ti.2) :
    handleHello cfg st now ifN msgH = (st, []) ∧
    getSparkNeighState (sparkRun cfg st trace).1 ifName cfg.nodeName = none ∧
    eventsFor ifName cfg.nodeName (sparkRun cfg st trace).2 = [] := by
  have hsilent : ∀ ti ∈ trace, ∀ (s : SparkState) (now2 : Nat),
      handleInput cfg s now2 ti.2 = (s, []) := by
    intro ti hti s now2
    have := htrace ti hti
    cases hi : ti.2 <;> rw [hi] at this <;>
      simp only [selfLoopInput] at this
    · exact handleHello_drop cfg s now2 _ _ (Or.inr this)
    · exact handleHandshake_drop cfg s now2 _ _ (Or.inr this)
    · exact handleHeartbeat_drop cfg s now2 _ _ (Or.inr this)
  obtain ⟨hk, he⟩ :=
    sparkRun_silent_inputs cfg ifName cfg.nodeName trace st hfresh hsilent
  refine ⟨handleHello_drop cfg st now ifN msgH (Or.inr hH), ?_, he⟩
  unfold getSparkNeighState
  rw [getNeighbor_fresh _ _ _ hk]
  rfl

theorem upsertNeighbor_fresh (l : List ((String × String) × Neighbor))
    (k : String × String) (m : Neighbor)
    (h : ∀ kv ∈ l, kv.1 ≠ k) :
    upsertNeighbor l k m = l ++ [(k, m)] := by
  induction l with
  | nil => simp [upsertNeighbor]
  | cons hd rest ih =>
    have hne : hd.1 ≠ k := h hd (by simp)
    simp only [upsertNeighbor, if_neg hne, List.cons_append]
    rw [ih (fun kv hkv => h kv (List.mem_cons_of_mem hd hkv))]

/-- One event-loop step processing the first valid hello from a peer with
no neighbor table entry: a fresh WARM record is created and no event is
emitted for the key. -/
theorem sparkStep_hello_new (cfg : SparkConfig) (st : SparkState) (now : Nat)
    (ifName : String) (msg : HelloMsg)
    (hdom : msg.domain = cfg.domainName)
    (hself : msg.nodeName ≠ cfg.nodeName)
    (hif : (findIface st ifName).isSome = true)
    (hfresh : ∀ kv ∈ st.neighbors, kv.1 ≠ (ifName, msg.nodeName)) :
    (sparkStep cfg st now (.hello ifName msg)).1.ifaces = st.ifaces ∧
    (sparkStep cfg st now (.hello ifName msg)).1.neighbors =
      (fireTimersList now st.neighbors).1 ++
        [((ifName, msg.nodeName), newNeighbor msg)] ∧
    (∀ kv ∈ (fireTimersList now st.neighbors).1, kv.1 ≠ (ifName, msg.nodeName)) ∧
    eventsFor ifName msg.nodeName (sparkStep cfg st now (.hello ifName msg)).2 = [] := by
  set st1 : SparkState := { st with neighbors := (fireTimersList now st.neighbors).1 }
    with hst1
  have hfresh1 : ∀ kv ∈ (fireTimersList now st.neighbors).1,
      kv.1 ≠ (ifName, msg.nodeName) :=
    fireTimersList_fresh now st.neighbors _ hfresh
  have hg : getNeighbor st1 ifName msg.nodeName = none :=
    getNeighbor_fresh st1 ifName msg.nodeName hfresh1
  obtain ⟨iface, hiface⟩ := Option.isSome_iff_exists.mp hif
  have hhello : handleHello cfg st1 now ifName msg =
      ({ st1 with
          neighbors := upsertNeighbor st1.neighbors (ifName, msg.nodeName)
            (newNeighbor msg) }, []) := by
    unfold handleHello
    rw [if_neg (by simp [hdom]), if_neg hself,
      show findIface st1 ifName = findIface st ifName from rfl, hiface, hg]
  have hstep : sparkStep cfg st now (.hello ifName msg) =
      ({ st1 with
          neighbors := upsertNeighbor st1.neighbors (ifName, msg.nodeName)
            (newNeighbor msg) },
        (fireTimersList now st.neighbors).2 ++ []) := by
    simp only [sparkStep, handleInput]
    rw [← hst1, hhello]
  rw [hstep]
  refine ⟨rfl, ?_, hfresh1, ?_⟩
  · exact upsertNeighbor_fresh _ _ _ hfresh1
  · rw [eventsFor_append]
    rw [eventsFor_fireTimers_fresh now st.neighbors ifName msg.nodeName
      (by simpa using hfresh)]
    simp [eventsFor]

/-- A WARM neighbor with no armed timers fed only hellos that never
reflect our identity stays WARM forever, with no event emitted for it. -/
theorem sparkRun_warm_hellos (cfg : SparkConfig) (ifName peer : String)
    (hs : peer ≠ cfg.nodeName) :
    ∀ (msgs : List (Nat × HelloMsg)) (st : SparkState)
      (pre post : List ((String × String) × Neighbor)) (n : Neighbor),
      st.neighbors = pre ++ ((ifName, peer), n) :: post →
      (∀ kv ∈ pre, kv.1 ≠ (ifName, peer)) →
      (∀ kv ∈ post, kv.1 ≠ (ifName, peer)) →
      (findIface st ifName).isSome = true →
      n.state = .WARM → n.heartbeatDeadline = none → n.grDeadline = none →
      n.negotiateDeadline = none →
      (∀ tm ∈ msgs, tm.2.domain = cfg.domainName ∧ tm.2.nodeName = peer ∧
        tm.2.reflectedNeighbors.contains cfg.nodeName = false) →
      getSparkNeighState
        (sparkRun cfg st (msgs.map (fun tm => (tm.1, .hello ifName tm.2)))).1
        ifName peer = some .WARM ∧
      eventsFor ifName peer
        (sparkRun cfg st (msgs.map (fun tm => (tm.1, .hello ifName tm.2)))).2 = [] := by
  intro msgs
  induction msgs with
  | nil =>
    intro st pre post n hst hpre hpost hif hw hhb hgr hneg hmsgs
    constructor
    · unfold getSparkNeighState
      simp only [List.map_nil, sparkRun]
      rw [getNeighbor_decomp st pre post ifName peer n hst hpre]
      simp [hw]
    · simp [sparkRun, eventsFor]
  | cons tm rest ih =>
    intro st pre post n hst hpre hpost hif hw hhb hgr hneg hmsgs
    obtain ⟨hd1, hn1, hrefl⟩ := hmsgs tm (by simp)
    obtain ⟨t, m⟩ := tm
    simp only at hd1 hn1 hrefl
    subst hn1
    have ht : neighborTimerStep t (ifName, m.nodeName) n = (some n, []) := by
      simp [neighborTimerStep, hw, hhb, hgr, hneg, deadlineReached]
    obtain ⟨hifa, hnb, hfp, hfq, hev⟩ :=
      sparkStep_hello_decomp cfg st t ifName m pre post n n hst hpre hpost
        hd1 hs hif ht
    have hrefl2 : cfg.nodeName ∉ m.reflectedNeighbors := by simpa using hrefl
    have hstep : helloNeighborStep cfg t (ifName, m.nodeName) m n =
        ({ n with
            remoteSeqNum := m.seqNum, transportV4 := m.v4Addr,
            transportV6 := m.v6Addr }, []) := by
      simp [helloNeighborStep, hw, hrefl2]
    rw [hstep] at hnb hev
    set st1 : SparkState := (sparkStep cfg st t (.hello ifName m)).1 with hst1
    have hif1 : (findIface st1 ifName).isSome = true := by
      unfold findIface
      rw [hifa]
      exact hif
    have hrest := ih st1 _ _ _ hnb hfp hfq hif1 hw hhb hgr hneg
      (fun tm2 h2 => hmsgs tm2 (List.mem_cons_of_mem _ h2))
    have hrun : sparkRun cfg st
        (((t, m) :: rest).map (fun tm => (tm.1, .hello ifName tm.2))) =
        ((sparkRun cfg st1 (rest.map (fun tm => (tm.1, .hello ifName tm.2)))).1,
          (sparkStep cfg st t (.hello ifName m)).2 ++
            (sparkRun cfg st1 (rest.map (fun tm => (tm.1, .hello ifName tm.2)))).2) := by
      simp [sparkRun, hst1]
    rw [hrun]
    exact ⟨hrest.1, by rw [eventsFor_append, hev, List.nil_append]; exact hrest.2⟩

/-- C7: if node A keeps receiving hellos from node B whose
reflectedNeighbors never contain A's identity (B never hears A), A creates
a WARM record for B on the first hello and remains WARM across every
further such hello, never emitting UP (or any other event) for B; B
itself, which hears nothing at all, never creates a record for A
(getSparkNeighState returns absent) and emits no event for A. -/
theorem c7_unidirectional_stays_warm (cfg : SparkConfig) (st : SparkState)
    (ifName peer : String) (t0 : Nat) (m0 : HelloMsg)
    (msgs : List (Nat × HelloMsg))
    (hfresh : ∀ kv ∈ st.neighbors, kv.1 ≠ (ifName, peer))
    (hif : (findIface st ifName).isSome = true)
    (hs : peer ≠ cfg.nodeName)
    (hd0 : m0.domain = cfg.domainName) (hn0 : m0.nodeName = peer)
    (_hrefl0 : m0.reflectedNeighbors.contains cfg.nodeName = false)
    (hmsgs : ∀ tm ∈ msgs, tm.2.domain = cfg.domainName ∧ tm.2.nodeName = peer ∧
      tm.2.reflectedNeighbors.contains cfg.nodeName = false)
    (cfgB : SparkConfig) (stB : SparkState) (ifB peerA : String)
    (trB : List (Nat × SparkInput))
    (hfreshB : ∀ kv ∈ stB.neighbors, kv.1 ≠ (ifB, peerA))
    (htrB : ∀ ti ∈ trB, ti.2 = SparkInput.advance) :
    getSparkNeighState
      (sparkRun cfg st
        ((t0, .hello ifName m0) ::
          msgs.map (fun tm => (tm.1, .hello ifName tm.2)))).1 ifName peer =
      some .WARM ∧
    eventsFor ifName peer
      (sparkRun cfg st
        ((t0, .hello ifName m0) ::
          msgs.map (fun tm => (tm.1, .hello ifName tm.2)))).2 = [] ∧
    getSparkNeighState (sparkRun cfgB stB trB).1 ifB peerA = none ∧
    eventsFor ifB peerA (sparkRun cfgB stB trB).2 = [] := by
  subst hn0
  obtain ⟨hifa0, hnb0, hf0, hev0⟩ :=
    sparkStep_hello_new cfg st t0 ifName m0 hd0 hs hif hfresh
  set st1 : SparkState := (sparkStep cfg st t0 (.hello ifName m0)).1 with hst1
  have hif1 : (findIface st1 ifName).isSome = true := by
    unfold findIface
    rw [hifa0]
    exact hif
  have hA := sparkRun_warm_hellos cfg ifName m0.nodeName hs msgs st1
    (fireTimersList t0 st.neighbors).1 [] (newNeighbor m0) (by simpa using hnb0)
    hf0 (by simp) hif1 rfl rfl rfl rfl hmsgs
  have hrun : sparkRun cfg st
      ((t0, .hello ifName m0) :: msgs.map (fun tm => (tm.1, .hello ifName tm.2))) =
      ((sparkRun cfg st1 (msgs.map (fun tm => (tm.1, .hello ifName tm.2)))).1,
        (sparkStep cfg st t0 (.hello ifName m0)).2 ++
          (sparkRun cfg st1 (msgs.map (fun tm => (tm.1, .hello ifName tm.2)))).2) := by
    simp [sparkRun, hst1]
  have hB : ∀ ti ∈ trB, ∀ (s : SparkState) (now : Nat),
      handleInput cfgB s now ti.2 = (s, []) := by
    intro ti hti s now
    rw [htrB ti hti]
    rfl
  obtain ⟨hkB, heB⟩ := sparkRun_silent_inputs cfgB ifB peerA trB stB hfreshB hB
  refine ⟨?_, ?_, ?_, heB⟩
  · rw [hrun]
    exact hA.1
  · rw [hrun, eventsFor_append, hev0, List.nil_append]
    exact hA.2
  · unfold getSparkNeighState
    rw [getNeighbor_fresh _ _ _ hkB]
    rfl

/-- C4: area matching applies each configured rule's neighborRegex to the
peer's nodeName case-insensitively and anchored to the full string, and
the first matching rule fixes the local candidate area: generically the
head rule wins as soon as its regex matches, the lowercase "fsw002"
matches the uppercase rule "FSW.*" but not "RSW.*", an unanchored
substring match ("sw.*" in the middle, or the proper front part "fsw") is
rejected, node rsw001's rules give candidate area "2" for peer fsw002 and
node fsw002's rules give candidate area "2" for peer rsw001, and in the
full two-sided discovery runs both sides emit UP with area "2". -/
theorem c4_area_match_case_insensitive (a : AreaConfig) (rest : List AreaConfig)
    (peer : String) (hm : regexFullMatch a.neighborRegex peer = true) :
    findFirstMatchingArea (a :: rest) peer = some a.areaId ∧
    regexFullMatch "FSW.*" "fsw002" = true ∧
    regexFullMatch "RSW.*" "fsw002" = false ∧
    regexFullMatch "sw.*" "fsw002" = false ∧
    regexFullMatch "fsw" "fsw002" = false ∧
    findFirstMatchingArea c4areas1 "fsw002" = some "2" ∧
    findFirstMatchingArea c4areas2 "rsw001" = some "2" ∧
    c4run1.2 = [⟨.UP, "iface1", "fsw002", "2"⟩] ∧
    c4run2.2 = [⟨.UP, "iface2", "rsw001", "2"⟩] := by
  refine ⟨?_, by decide, by decide, by decide, by decide, by decide, by decide,
    by decide, by decide⟩
  simp [findFirstMatchingArea, hm]

/-- C4 witness: the theorem applied at the concrete rule 2 → FSW.* and
peer fsw002. -/
theorem c4_area_match_case_insensitive_witness :
    findFirstMatchingArea (⟨"2", "FSW.*"⟩ :: []) "fsw002" = some "2" ∧
    regexFullMatch "FSW.*" "fsw002" = true ∧
    regexFullMatch "RSW.*" "fsw002" = false ∧
    regexFullMatch "sw.*" "fsw002" = false ∧
    regexFullMatch "fsw" "fsw002" = false ∧
    findFirstMatchingArea c4areas1 "fsw002" = some "2" ∧
    findFirstMatchingArea c4areas2 "rsw001" = some "2" ∧
    c4run1.2 = [⟨.UP, "iface1", "fsw002", "2"⟩] ∧
    c4run2.2 = [⟨.UP, "iface2", "rsw001", "2"⟩] :=
  c4_area_match_case_insensitive ⟨"2", "FSW.*"⟩ [] "fsw002" (by decide)

theorem neighborTimerStep_preAdj (now : Nat) (k : String × String) (n : Neighbor)
    (h : preAdjNeighbor n) :
    ∃ n2, neighborTimerStep now k n = (some n2, []) ∧ preAdjNeighbor n2 := by
  obtain ⟨hstate, hhb, hgr⟩ := h
  rcases hstate with hstate | hstate
  · exact ⟨n, by simp [neighborTimerStep, hstate], Or.inl hstate, hhb, hgr⟩
  · by_cases hd : deadlineReached n.negotiateDeadline now = true
    · refine ⟨{ n with state := .WARM, negotiateDeadline := none }, ?_, ?_⟩
      · simp [neighborTimerStep, hstate, hd]
      · exact ⟨Or.inl rfl, hhb, hgr⟩
    · refine ⟨n, ?_, Or.inr hstate, hhb, hgr⟩
      simp only [Bool.not_eq_true] at hd
      simp [neighborTimerStep, hstate, hd]

theorem helloNeighborStep_preAdj (cfg : SparkConfig) (now : Nat)
    (k : String × String) (msg : HelloMsg) (n : Neighbor)
    (h : preAdjNeighbor n) :
    (helloNeighborStep cfg now k msg n).2 = [] ∧
    preAdjNeighbor (helloNeighborStep cfg now k msg n).1 := by
  obtain ⟨hstate, hhb, hgr⟩ := h
  rcases hstate with hstate | hstate
  · by_cases hc : cfg.nodeName ∈ msg.reflectedNeighbors
    · refine ⟨by simp [helloNeighborStep, hstate, hc], ?_⟩
      have hn1 : (helloNeighborStep cfg now k msg n).1 =
          { n with
              state := .NEGOTIATE, remoteSeqNum := msg.seqNum,
              transportV4 := msg.v4Addr, transportV6 := msg.v6Addr,
              negotiateDeadline := some (now + cfg.negotiateHoldMs) } := by
        simp [helloNeighborStep, hstate, hc]
      rw [hn1]
      exact ⟨Or.inr rfl, hhb, hgr⟩
    · refine ⟨by simp [helloNeighborStep, hstate, hc], ?_⟩
      have hn1 : (helloNeighborStep cfg now k msg n).1 =
          { n with
              remoteSeqNum := msg.seqNum,
              transportV4 := msg.v4Addr, transportV6 := msg.v6Addr } := by
        simp [helloNeighborStep, hstate, hc]
      rw [hn1]
      exact ⟨Or.inl hstate, hhb, hgr⟩
  · refine ⟨by simp [helloNeighborStep, hstate], ?_⟩
    have hn1 : (helloNeighborStep cfg now k msg n).1 =
        { n with remoteSeqNum := msg.seqNum } := by
      simp [helloNeighborStep, hstate]
    rw [hn1]
    exact ⟨Or.inr hstate, hhb, hgr⟩

theorem handshakeNeighborStep_preAdjFail (cfg : SparkConfig) (now : Nat)
    (iface : InterfaceRecord) (k : String × String) (msg : HandshakeMsg)
    (n : Neighbor) (h : preAdjNeighbor n)
    (hv4e : cfg.enableV4 = true)
    (hv4 : sameV4Subnet iface.v4Addr msg.transportV4 iface.v4Len = false) :
    (handshakeNeighborStep cfg now iface k msg n).2 = [] ∧
    preAdjNeighbor (handshakeNeighborStep cfg now iface k msg n).1 := by
  obtain ⟨hstate, hhb, hgr⟩ := h
  rcases hstate with hstate | hstate
  · constructor
    · simp [handshakeNeighborStep, hstate]
    · simp only [handshakeNeighborStep, hstate]
      exact ⟨Or.inl hstate, hhb, hgr⟩
  · cases hna : negotiateArea (proposeArea cfg.areas k.2) msg.proposedArea with
    | none =>
      constructor
      · simp [handshakeNeighborStep, hstate, hna]
      · simp only [handshakeNeighborStep, hstate, hna]
        exact ⟨Or.inl rfl, hhb, hgr⟩
    | some ar =>
      have hcond : cfg.enableV4 = true ∧
          ¬ sameV4Subnet iface.v4Addr msg.transportV4 iface.v4Len = true := by
        simp [hv4e, hv4]
      constructor
      · simp [handshakeNeighborStep, hstate, hna, hcond]
      · simp only [handshakeNeighborStep, hstate, hna, if_pos hcond]
        exact ⟨Or.inl rfl, hhb, hgr⟩

/-- One event-loop step processing a heartbeat for a decomposed neighbor
that is not ESTABLISHED: the state (beyond timers) is untouched and no
event concerns the key. -/
theorem sparkStep_heartbeat_skip (cfg : SparkConfig) (st : SparkState)
    (now : Nat) (ifName : String) (msg : HeartbeatMsg)
    (pre post : List ((String × String) × Neighbor)) (n n2 : Neighbor)
    (hst : st.neighbors = pre ++ ((ifName, msg.nodeName), n) :: post)
    (hpre : ∀ kv ∈ pre, kv.1 ≠ (ifName, msg.nodeName))
    (hpost : ∀ kv ∈ post, kv.1 ≠ (ifName, msg.nodeName))
    (ht : neighborTimerStep now (ifName, msg.nodeName) n = (some n2, []))
    (hne : n2.state ≠ .ESTABLISHED) :
    (sparkStep cfg st now (.heartbeat ifName msg)).1.ifaces = st.ifaces ∧
    (sparkStep cfg st now (.heartbeat ifName msg)).1.neighbors =
      (fireTimersList now pre).1 ++
        ((ifName, msg.nodeName), n2) :: (fireTimersList now post).1 ∧
    (∀ kv ∈ (fireTimersList now pre).1, kv.1 ≠ (ifName, msg.nodeName)) ∧
    (∀ kv ∈ (fireTimersList now post).1, kv.1 ≠ (ifName, msg.nodeName)) ∧
    eventsFor ifName msg.nodeName (sparkStep cfg st now (.heartbeat ifName msg)).2 = [] := by
  obtain ⟨hfl, hfp, hfq, hfe⟩ :=
    fireTimersList_decomp now pre post (ifName, msg.nodeName) n n2 hpre hpost ht
  rw [← hst] at hfl hfe
  set st1 : SparkState := { st with neighbors := (fireTimersList now st.neighbors).1 }
    with hst1
  have hg : getNeighbor st1 ifName msg.nodeName = some n2 :=
    getNeighbor_decomp st1 (fireTimersList now pre).1 (fireTimersList now post).1
      ifName msg.nodeName n2 hfl hfp
  have hhb : handleHeartbeat cfg st1 now ifName msg = (st1, []) := by
    unfold handleHeartbeat
    by_cases hd : msg.domain ≠ cfg.domainName
    · rw [if_pos hd]
    · rw [if_neg hd]
      by_cases hsf : msg.nodeName = cfg.nodeName
      · rw [if_pos hsf]
      · rw [if_neg hsf]
        cases hfi : findIface st1 ifName with
        | none => rfl
        | some iface => simp [hg, hne]
  have hstep : sparkStep cfg st now (.heartbeat ifName msg) =
      (st1, (fireTimersList now st.neighbors).2 ++ []) := by
    simp only [sparkStep, handleInput]
    rw [← hst1, hhb]
  rw [hstep]
  exact ⟨rfl, hfl, hfp, hfq, by simpa using hfe⟩

/-- A WARM-or-NEGOTIATE neighbor with the heartbeat and GR holds unarmed,
fed only time steps, hellos/heartbeats from its peer, and handshakes whose
advertised v4 address fails the subnet validation, stays in
WARM-or-NEGOTIATE forever and never emits any event (no UP, no DOWN) for
its key. -/
theorem sparkRun_v4_mismatch_stays (cfg : SparkConfig) (ifName peer : String)
    (iface : InterfaceRecord) (hs : peer ≠ cfg.nodeName) :
    ∀ (trace : List (Nat × SparkInput)) (st : SparkState)
      (pre post : List ((String × String) × Neighbor)) (n : Neighbor),
      st.neighbors = pre ++ ((ifName, peer), n) :: post →
      (∀ kv ∈ pre, kv.1 ≠ (ifName, peer)) →
      (∀ kv ∈ post, kv.1 ≠ (ifName, peer)) →
      findIface st ifName = some iface →
      preAdjNeighbor n →
      (∀ ti ∈ trace, c6Input cfg ifName peer iface ti.2) →
      (∃ s, getSparkNeighState (sparkRun cfg st trace).1 ifName peer = some s ∧
        (s = .WARM ∨ s = .NEGOTIATE)) ∧
      eventsFor ifName peer (sparkRun cfg st trace).2 = [] := by
  intro trace
  induction trace with
  | nil =>
    intro st pre post n hst hpre hpost hif hpa _
    constructor
    · refine ⟨n.state, ?_, hpa.1⟩
      unfold getSparkNeighState
      simp only [sparkRun]
      rw [getNeighbor_decomp st pre post ifName peer n hst hpre]
      rfl
    · simp [sparkRun, eventsFor]
  | cons ti rest ih =>
    obtain ⟨t, i⟩ := ti
    intro st pre post n hst hpre hpost hif hpa htr
    have hi := htr (t, i) (by simp)
    obtain ⟨n2, ht, hpa2⟩ := neighborTimerStep_preAdj t (ifName, peer) n hpa
    have hrest := fun st2 pre2 post2 n3 h1 h2 h3 h4 h5 =>
      ih st2 pre2 post2 n3 h1 h2 h3 h4 h5
        (fun ti2 hti2 => htr ti2 (List.mem_cons_of_mem _ hti2))
    have hrun : ∀ (r : SparkState × List NeighborEvent),
        sparkStep cfg st t i = r →
        sparkRun cfg st ((t, i) :: rest) =
          ((sparkRun cfg r.1 rest).1, r.2 ++ (sparkRun cfg r.1 rest).2) := by
      intro r hr
      simp [sparkRun, hr]
    cases i with
    | advance =>
      obtain ⟨hifa, hnb, hfp, hfq, hev⟩ :=
        sparkStep_advance_decomp cfg st t pre post (ifName, peer) n n2
          hst hpre hpost ht
      have hif2 : findIface (sparkStep cfg st t .advance).1 ifName = some iface := by
        unfold findIface
        rw [hifa]
        exact hif
      have hr := hrest _ _ _ _ hnb hfp hfq hif2 hpa2
      rw [hrun _ rfl]
      refine ⟨hr.1, ?_⟩
      rw [eventsFor_append, hr.2]
      simpa using hev
    | hello ifN m =>
      obtain ⟨hifn, hdm, hnm⟩ := hi
      subst hifn
      subst hnm
      obtain ⟨hifa, hnb, hfp, hfq, hev⟩ :=
        sparkStep_hello_decomp cfg st t ifN m pre post n n2 hst hpre hpost
          hdm hs (by rw [hif]; rfl) ht
      obtain ⟨hev2, hpa3⟩ :=
        helloNeighborStep_preAdj cfg t (ifN, m.nodeName) m n2 hpa2
      have hif2 : findIface (sparkStep cfg st t (.hello ifN m)).1 ifN =
          some iface := by
        unfold findIface
        rw [hifa]
        exact hif
      have hr := hrest _ _ _ _ hnb hfp hfq hif2 hpa3
      rw [hrun _ rfl]
      refine ⟨hr.1, ?_⟩
      rw [eventsFor_append, hr.2, hev, hev2]
      rfl
    | heartbeat ifN m =>
      obtain ⟨hifn, hdm, hnm⟩ := hi
      subst hifn
      subst hnm
      have hne : n2.state ≠ .ESTABLISHED := by
        rcases hpa2.1 with h | h <;> simp [h]
      obtain ⟨hifa, hnb, hfp, hfq, hev⟩ :=
        sparkStep_heartbeat_skip cfg st t ifN m pre post n n2 hst hpre hpost
          ht hne
      have hif2 : findIface (sparkStep cfg st t (.heartbeat ifN m)).1 ifN =
          some iface := by
        unfold findIface
        rw [hifa]
        exact hif
      have hr := hrest _ _ _ _ hnb hfp hfq hif2 hpa2
      rw [hrun _ rfl]
      refine ⟨hr.1, ?_⟩
      rw [eventsFor_append, hr.2, hev]
      rfl
    | handshake ifN m =>
      obtain ⟨hifn, hdm, hnm, haddr, hv4e, hv4⟩ := hi
      subst hifn
      subst hnm
      obtain ⟨hifa, hnb, hfp, hfq, hev⟩ :=
        sparkStep_handshake_decomp cfg st t ifN m pre post n n2 iface
          hst hpre hpost hdm hs haddr hif ht
      obtain ⟨hev2, hpa3⟩ :=
        handshakeNeighborStep_preAdjFail cfg t iface (ifN, m.nodeName) m n2
          hpa2 hv4e hv4
      have hif2 : findIface (sparkStep cfg st t (.handshake ifN m)).1 ifN =
          some iface := by
        unfold findIface
        rw [hifa]
        exact hif
      have hr := hrest _ _ _ _ hnb hfp hfq hif2 hpa3
      rw [hrun _ rfl]
      refine ⟨hr.1, ?_⟩
      rw [eventsFor_append, hr.2, hev, hev2]
      rfl
    | updateDb ifs => exact absurd hi (by simp [c6Input])

/-- C6: with v4 validation enabled, a neighbor whose peer advertises a v4
address outside the local interface's v4 subnet never completes
negotiation: over any trace of time steps, hellos, heartbeats and
subnet-mismatching handshakes from that peer, no event at all (so no UP
and no DOWN) is emitted for the neighbor and its state remains in
{WARM, NEGOTIATE}; and once a handshake advertises an address in the same
subnet (with the area negotiation agreeing), that step emits UP and the
neighbor becomes ESTABLISHED — on both sides, since the theorem applies to
either node's configuration. -/
theorem c6_v4_subnet_validation (cfg : SparkConfig) (st : SparkState)
    (ifName peer : String) (iface : InterfaceRecord)
    (trace : List (Nat × SparkInput))
    (pre post : List ((String × String) × Neighbor)) (n : Neighbor)
    (t : Nat) (msgU : HandshakeMsg) (ar : String) (stU : SparkState)
    (preU postU : List ((String × String) × Neighbor)) (nU : Neighbor)
    (hs : peer ≠ cfg.nodeName)
    (hst : st.neighbors = pre ++ ((ifName, peer), n) :: post)
    (hpre : ∀ kv ∈ pre, kv.1 ≠ (ifName, peer))
    (hpost : ∀ kv ∈ post, kv.1 ≠ (ifName, peer))
    (hiface : findIface st ifName = some iface)
    (hpa : preAdjNeighbor n)
    (htr : ∀ ti ∈ trace, c6Input cfg ifName peer iface ti.2)
    (hstU : stU.neighbors = preU ++ ((ifName, msgU.nodeName), nU) :: postU)
    (hpreU : ∀ kv ∈ preU, kv.1 ≠ (ifName, msgU.nodeName))
    (hpostU : ∀ kv ∈ postU, kv.1 ≠ (ifName, msgU.nodeName))
    (hifaceU : findIface stU ifName = some iface)
    (hdomU : msgU.domain = cfg.domainName)
    (hsU : msgU.nodeName ≠ cfg.nodeName)
    (haddrU : msgU.neighborNodeName = cfg.nodeName)
    (hstateU : nU.state = .NEGOTIATE)
    (hnegU : deadlineReached nU.negotiateDeadline t = false)
    (harea : negotiateArea (proposeArea cfg.areas msgU.nodeName) msgU.proposedArea =
      some ar)
    (hv4ok : sameV4Subnet iface.v4Addr msgU.transportV4 iface.v4Len = true) :
    ((∃ s, getSparkNeighState (sparkRun cfg st trace).1 ifName peer = some s ∧
        (s = .WARM ∨ s = .NEGOTIATE)) ∧
      eventsFor ifName peer (sparkRun cfg st trace).2 = []) ∧
    eventsFor ifName msgU.nodeName
      (sparkStep cfg stU t (.handshake ifName msgU)).2 =
      [⟨.UP, ifName, msgU.nodeName, ar⟩] ∧
    getSparkNeighState (sparkStep cfg stU t (.handshake ifName msgU)).1
      ifName msgU.nodeName = some .ESTABLISHED := by
  refine ⟨sparkRun_v4_mismatch_stays cfg ifName peer iface hs trace st pre post n
    hst hpre hpost hiface hpa htr, ?_⟩
  have htU : neighborTimerStep t (ifName, msgU.nodeName) nU = (some nU, []) := by
    simp [neighborTimerStep, hstateU, hnegU]
  obtain ⟨hifaU, hnbU, hfpU, hfqU, hevU⟩ :=
    sparkStep_handshake_decomp cfg stU t ifName msgU preU postU nU nU iface
      hstU hpreU hpostU hdomU hsU haddrU hifaceU htU
  have hstepU : handshakeNeighborStep cfg t iface (ifName, msgU.nodeName) msgU nU =
      ({ nU with
          state := .ESTABLISHED, area := ar,
          transportV4 := msgU.transportV4, transportV6 := msgU.transportV6,
          heartbeatHoldMs := msgU.heartbeatHoldMs, grHoldMs := msgU.grHoldMs,
          heartbeatDeadline := some (t + msgU.heartbeatHoldMs),
          negotiateDeadline := none },
        [⟨.UP, ifName, msgU.nodeName, ar⟩]) := by
    simp [handshakeNeighborStep, hstateU, harea, hv4ok]
  rw [hstepU] at hnbU hevU
  refine ⟨hevU, ?_⟩
  unfold getSparkNeighState
  rw [getNeighbor_decomp (sparkStep cfg stU t (.handshake ifName msgU)).1
    _ _ ifName msgU.nodeName _ hnbU hfpU]
  rfl

theorem eventsForIf_append (ifName : String) (l1 l2 : List NeighborEvent) :
    eventsForIf ifName (l1 ++ l2) =
      eventsForIf ifName l1 ++ eventsForIf ifName l2 := by
  simp [eventsForIf, List.filter_append]

theorem eventsForIf_eq_nil (ifName : String) (evs : List NeighborEvent)
    (h : ∀ e ∈ evs, e.ifName ≠ ifName) :
    eventsForIf ifName evs = [] := by
  unfold eventsForIf
  rw [List.filter_eq_nil_iff]
  intro e he
  simpa using h e he

theorem removeNeighborsOnIfaces_append (removed : List String)
    (l1 l2 : List ((String × String) × Neighbor)) :
    removeNeighborsOnIfaces removed (l1 ++ l2) =
      ((removeNeighborsOnIfaces removed l1).1 ++ (removeNeighborsOnIfaces removed l2).1,
        (removeNeighborsOnIfaces removed l1).2 ++ (removeNeighborsOnIfaces removed l2).2) := by
  induction l1 with
  | nil => simp [removeNeighborsOnIfaces]
  | cons kv rest ih =>
    obtain ⟨k, n⟩ := kv
    simp only [List.cons_append, removeNeighborsOnIfaces, ih]
    by_cases h : k.1 ∈ removed <;> simp [h, ih]

theorem removeNeighborsOnIfaces_events_key (removed : List String)
    (l : List ((String × String) × Neighbor)) :
    ∀ e ∈ (removeNeighborsOnIfaces removed l).2,
      (e.ifName, e.nodeName) ∈ l.map Prod.fst := by
  induction l with
  | nil => simp [removeNeighborsOnIfaces]
  | cons kv rest ih =>
    obtain ⟨k, n⟩ := kv
    intro e he
    simp only [removeNeighborsOnIfaces] at he
    by_cases h : (removed.contains k.1) = true
    · rw [if_pos h] at he
      simp only at he
      rcases List.mem_append.mp he with h1 | h2
      · by_cases hest : n.state = .ESTABLISHED
        · rw [if_pos hest] at h1
          simp only [List.mem_singleton] at h1
          subst h1
          simp
        · rw [if_neg hest] at h1
          exact absurd h1 (by simp)
      · simp only [List.map_cons, List.mem_cons]
        exact Or.inr (ih e h2)
    · rw [if_neg h] at he
      simp only at he
      simp only [List.map_cons, List.mem_cons]
      exact Or.inr (ih e he)

theorem removeNeighborsOnIfaces_result_keys (removed : List String)
    (l : List ((String × String) × Neighbor)) :
    ∀ kv ∈ (removeNeighborsOnIfaces removed l).1,
      kv ∈ l ∧ removed.contains kv.1.1 = false := by
  induction l with
  | nil => simp [removeNeighborsOnIfaces]
  | cons hd rest ih =>
    obtain ⟨k, n⟩ := hd
    intro kv hkv
    simp only [removeNeighborsOnIfaces] at hkv
    by_cases h : removed.contains k.1 = true
    · rw [if_pos h] at hkv
      obtain ⟨h1, h2⟩ := ih kv hkv
      exact ⟨List.mem_cons_of_mem _ h1, h2⟩
    · rw [if_neg h] at hkv
      rcases List.mem_cons.mp hkv with heq | hmem
      · subst heq
        exact ⟨by simp, by simpa using h⟩
      · obtain ⟨h1, h2⟩ := ih kv hmem
        exact ⟨List.mem_cons_of_mem _ h1, h2⟩

/-- Removing the interfaces of a decomposed neighbor table whose
distinguished entry lives on a removed interface and is ESTABLISHED: the
entry is removed and its events are exactly one DOWN. -/
theorem removeNeighborsOnIfaces_decomp (removed : List String)
    (pre post : List ((String × String) × Neighbor)) (k : String × String)
    (n : Neighbor)
    (hpre : ∀ kv ∈ pre, kv.1 ≠ k) (hpost : ∀ kv ∈ post, kv.1 ≠ k)
    (hin : removed.contains k.1 = true) (hest : n.state = .ESTABLISHED) :
    (removeNeighborsOnIfaces removed (pre ++ (k, n) :: post)).1 =
      (removeNeighborsOnIfaces removed pre).1 ++
        (removeNeighborsOnIfaces removed post).1 ∧
    eventsFor k.1 k.2 (removeNeighborsOnIfaces removed (pre ++ (k, n) :: post)).2 =
      [⟨.DOWN, k.1, k.2, n.area⟩] := by
  have hin2 : k.1 ∈ removed := by simpa using hin
  have hmid : removeNeighborsOnIfaces removed ((k, n) :: post) =
      ((removeNeighborsOnIfaces removed post).1,
        ⟨.DOWN, k.1, k.2, n.area⟩ :: (removeNeighborsOnIfaces removed post).2) := by
    simp [removeNeighborsOnIfaces, hin2, hest]
  have happ := removeNeighborsOnIfaces_append removed pre ((k, n) :: post)
  constructor
  · rw [happ, hmid]
  · rw [happ, hmid]
    rw [eventsFor_append]
    have hp : eventsFor k.1 k.2 (removeNeighborsOnIfaces removed pre).2 = [] := by
      apply eventsFor_eq_nil
      intro e he hc
      have := removeNeighborsOnIfaces_events_key removed pre e he
      rw [hc.1, hc.2] at this
      obtain ⟨kv, hkv, hkeq⟩ := List.mem_map.mp this
      exact hpre kv hkv (by rw [hkeq])
    have hq : eventsFor k.1 k.2 (removeNeighborsOnIfaces removed post).2 = [] := by
      apply eventsFor_eq_nil
      intro e he hc
      have := removeNeighborsOnIfaces_events_key removed post e he
      rw [hc.1, hc.2] at this
      obtain ⟨kv, hkv, hkeq⟩ := List.mem_map.mp this
      exact hpost kv hkv (by rw [hkeq])
    rw [hp]
    have : eventsFor k.1 k.2
        (⟨.DOWN, k.1, k.2, n.area⟩ :: (removeNeighborsOnIfaces removed post).2) =
        ⟨.DOWN, k.1, k.2, n.area⟩ :: eventsFor k.1 k.2
          (removeNeighborsOnIfaces removed post).2 := by
      simp [eventsFor, List.filter]
    rw [this, hq]
    simp

theorem upsertNeighbor_keys (l : List ((String × String) × Neighbor))
    (k : String × String) (m : Neighbor) :
    ∀ kv ∈ upsertNeighbor l k m, kv.1 ∈ l.map Prod.fst ∨ kv.1 = k := by
  induction l with
  | nil => simp [upsertNeighbor]
  | cons hd rest ih =>
    intro kv hkv
    simp only [upsertNeighbor] at hkv
    by_cases h : hd.1 = k
    · rw [if_pos h] at hkv
      rcases List.mem_cons.mp hkv with heq | hmem
      · subst heq
        exact Or.inr rfl
      · simp only [List.map_cons, List.mem_cons]
        exact Or.inl (Or.inr (List.mem_map.mpr ⟨kv, hmem, rfl⟩))
    · rw [if_neg h] at hkv
      rcases List.mem_cons.mp hkv with heq | hmem
      · subst heq
        simp
      · rcases ih kv hmem with h1 | h2
        · simp only [List.map_cons, List.mem_cons]
          exact Or.inl (Or.inr h1)
        · exact Or.inr h2

theorem handleHello_events_if (cfg : SparkConfig) (st : SparkState) (now : Nat)
    (ifN : String) (m : HelloMsg) :
    ∀ e ∈ (handleHello cfg st now ifN m).2, e.ifName = ifN := by
  intro e he
  unfold handleHello at he
  split_ifs at he
  · exact absurd he (by simp)
  · exact absurd he (by simp)
  · split at he
    · exact absurd he (by simp)
    · split at he
      · exact absurd he (by simp)
      · exact (helloNeighborStep_events_key cfg now (ifN, m.nodeName) m _ e he).1

theorem handleHandshake_events_if (cfg : SparkConfig) (st : SparkState) (now : Nat)
    (ifN : String) (m : HandshakeMsg) :
    ∀ e ∈ (handleHandshake cfg st now ifN m).2, e.ifName = ifN := by
  intro e he
  unfold handleHandshake at he
  split_ifs at he
  · exact absurd he (by simp)
  · exact absurd he (by simp)
  · exact absurd he (by simp)
  · split at he
    · exact absurd he (by simp)
    · split at he
      · exact absurd he (by simp)
      · exact (handshakeNeighborStep_events_key cfg now _ (ifN, m.nodeName)
          m _ e he).1

theorem handleHeartbeat_events_nil (cfg : SparkConfig) (st : SparkState)
    (now : Nat) (ifN : String) (m : HeartbeatMsg) :
    (handleHeartbeat cfg st now ifN m).2 = [] := by
  unfold handleHeartbeat
  split_ifs
  · rfl
  · rfl
  · split
    · rfl
    · split
      · rfl
      · split_ifs <;> rfl

theorem handleHello_keys (cfg : SparkConfig) (st : SparkState) (now : Nat)
    (ifN : String) (m : HelloMsg) :
    ∀ kv ∈ (handleHello cfg st now ifN m).1.neighbors,
      kv.1 ∈ st.neighbors.map Prod.fst ∨ kv.1 = (ifN, m.nodeName) := by
  intro kv hkv
  unfold handleHello at hkv
  split_ifs at hkv
  · exact Or.inl (List.mem_map.mpr ⟨kv, hkv, rfl⟩)
  · exact Or.inl (List.mem_map.mpr ⟨kv, hkv, rfl⟩)
  · split at hkv
    · exact Or.inl (List.mem_map.mpr ⟨kv, hkv, rfl⟩)
    · split at hkv
      · exact upsertNeighbor_keys _ _ _ kv hkv
      · exact upsertNeighbor_keys _ _ _ kv hkv

theorem handleHandshake_keys (cfg : SparkConfig) (st : SparkState) (now : Nat)
    (ifN : String) (m : HandshakeMsg) :
    ∀ kv ∈ (handleHandshake cfg st now ifN m).1.neighbors,
      kv.1 ∈ st.neighbors.map Prod.fst ∨ kv.1 = (ifN, m.nodeName) := by
  intro kv hkv
  unfold handleHandshake at hkv
  split_ifs at hkv
  · exact Or.inl (List.mem_map.mpr ⟨kv, hkv, rfl⟩)
  · exact Or.inl (List.mem_map.mpr ⟨kv, hkv, rfl⟩)
  · exact Or.inl (List.mem_map.mpr ⟨kv, hkv, rfl⟩)
  · split at hkv
    · exact Or.inl (List.mem_map.mpr ⟨kv, hkv, rfl⟩)
    · split at hkv
      · exact Or.inl (List.mem_map.mpr ⟨kv, hkv, rfl⟩)
      · exact upsertNeighbor_keys _ _ _ kv hkv

theorem handleHeartbeat_keys (cfg : SparkConfig) (st : SparkState) (now : Nat)
    (ifN : String) (m : HeartbeatMsg) :
    ∀ kv ∈ (handleHeartbeat cfg st now ifN m).1.neighbors,
      kv.1 ∈ st.neighbors.map Prod.fst ∨ kv.1 = (ifN, m.nodeName) := by
  intro kv hkv
  unfold handleHeartbeat at hkv
  split_ifs at hkv
  · exact Or.inl (List.mem_map.mpr ⟨kv, hkv, rfl⟩)
  · exact Or.inl (List.mem_map.mpr ⟨kv, hkv, rfl⟩)
  · split at hkv
    · exact Or.inl (List.mem_map.mpr ⟨kv, hkv, rfl⟩)
    · split at hkv
      · exact Or.inl (List.mem_map.mpr ⟨kv, hkv, rfl⟩)
      · split_ifs at hkv
        · exact upsertNeighbor_keys _ _ _ kv hkv
        · exact Or.inl (List.mem_map.mpr ⟨kv, hkv, rfl⟩)

theorem handleHello_ifaces (cfg : SparkConfig) (st : SparkState) (now : Nat)
    (ifN : String) (m : HelloMsg) :
    (handleHello cfg st now ifN m).1.ifaces = st.ifaces := by
  unfold handleHello
  split_ifs
  · rfl
  · rfl
  · split
    · rfl
    · split <;> rfl

theorem handleHandshake_ifaces (cfg : SparkConfig) (st : SparkState) (now : Nat)
    (ifN : String) (m : HandshakeMsg) :
    (handleHandshake cfg st now ifN m).1.ifaces = st.ifaces := by
  unfold handleHandshake
  split_ifs
  · rfl
  · rfl
  · rfl
  · split
    · rfl
    · split <;> rfl

theorem handleHeartbeat_ifaces (cfg : SparkConfig) (st : SparkState) (now : Nat)
    (ifN : String) (m : HeartbeatMsg) :
    (handleHeartbeat cfg st now ifN m).1.ifaces = st.ifaces := by
  unfold handleHeartbeat
  split_ifs
  · rfl
  · rfl
  · split
    · rfl
    · split
      · rfl
      · split_ifs <;> rfl

theorem handleHello_noIface (cfg : SparkConfig) (st : SparkState) (now : Nat)
    (ifN : String) (m : HelloMsg) (h : findIface st ifN = none) :
    handleHello cfg st now ifN m = (st, []) := by
  unfold handleHello
  split_ifs
  · rfl
  · rfl
  · rw [h]

theorem handleHandshake_noIface (cfg : SparkConfig) (st : SparkState) (now : Nat)
    (ifN : String) (m : HandshakeMsg) (h : findIface st ifN = none) :
    handleHandshake cfg st now ifN m = (st, []) := by
  unfold handleHandshake
  split_ifs
  · rfl
  · rfl
  · rfl
  · rw [h]

theorem handleHeartbeat_noIface (cfg : SparkConfig) (st : SparkState) (now : Nat)
    (ifN : String) (m : HeartbeatMsg) (h : findIface st ifN = none) :
    handleHeartbeat cfg st now ifN m = (st, []) := by
  unfold handleHeartbeat
  split_ifs
  · rfl
  · rfl
  · rw [h]

/-- After an interface has been removed (untracked and with no neighbor
living on it), any further trace of packets and time steps — including
late packets arriving on the removed interface — emits no event for that
interface, and the interface stays untracked with no neighbor on it. -/
theorem sparkRun_removed_iface_silent (cfg : SparkConfig) (ifName : String) :
    ∀ (trace : List (Nat × SparkInput)) (st : SparkState),
      findIface st ifName = none →
      (∀ kv ∈ st.neighbors, kv.1.1 ≠ ifName) →
      (∀ ti ∈ trace, noUpdateDbInput ti.2) →
      eventsForIf ifName (sparkRun cfg st trace).2 = [] := by
  intro trace
  induction trace with
  | nil =>
    intro st _ _ _
    simp [sparkRun, eventsForIf]
  | cons ti rest ih =>
    obtain ⟨t, i⟩ := ti
    intro st hifn hkeys htr
    set st1 : SparkState := { st with neighbors := (fireTimersList t st.neighbors).1 }
      with hst1
    have hkeys1 : ∀ kv ∈ st1.neighbors, kv.1.1 ≠ ifName := by
      intro kv hkv
      have hmem := fireTimersList_keys t st.neighbors kv hkv
      obtain ⟨kv2, hkv2, hkeq⟩ := List.mem_map.mp hmem
      rw [← hkeq]
      exact hkeys kv2 hkv2
    have hifn1 : findIface st1 ifName = none := hifn
    have hev1 : eventsForIf ifName (fireTimersList t st.neighbors).2 = [] := by
      apply eventsForIf_eq_nil
      intro e he
      have hmem := fireTimersList_events_key t st.neighbors e he
      obtain ⟨kv, hkv, hkeq⟩ := List.mem_map.mp hmem
      intro hc
      apply hkeys kv hkv
      have h2 : kv.1.1 = e.ifName := by rw [hkeq]
      exact h2.trans hc
    have hmain : findIface (sparkStep cfg st t i).1 ifName = none ∧
        (∀ kv ∈ (sparkStep cfg st t i).1.neighbors, kv.1.1 ≠ ifName) ∧
        eventsForIf ifName (sparkStep cfg st t i).2 = [] := by
      cases i with
      | advance =>
        have hstep : sparkStep cfg st t .advance =
            (st1, (fireTimersList t st.neighbors).2 ++ []) := by
          simp only [sparkStep, handleInput]
        rw [hstep]
        exact ⟨hifn1, hkeys1, by rw [eventsForIf_append, hev1]; rfl⟩
      | hello ifN m =>
        have hstep : sparkStep cfg st t (.hello ifN m) =
            ((handleHello cfg st1 t ifN m).1,
              (fireTimersList t st.neighbors).2 ++ (handleHello cfg st1 t ifN m).2) := by
          simp only [sparkStep, handleInput]
        rw [hstep]
        by_cases hifN : ifN = ifName
        · subst hifN
          rw [handleHello_noIface cfg st1 t ifN m hifn1]
          exact ⟨hifn1, hkeys1, by rw [eventsForIf_append, hev1]; rfl⟩
        · refine ⟨?_, ?_, ?_⟩
          · unfold findIface
            rw [handleHello_ifaces]
            exact hifn1
          · intro kv hkv
            rcases handleHello_keys cfg st1 t ifN m kv hkv with h1 | h2
            · obtain ⟨kv2, hkv2, hkeq⟩ := List.mem_map.mp h1
              rw [← hkeq]
              exact hkeys1 kv2 hkv2
            · rw [h2]
              exact hifN
          · rw [eventsForIf_append, hev1, List.nil_append]
            apply eventsForIf_eq_nil
            intro e he
            rw [handleHello_events_if cfg st1 t ifN m e he]
            exact hifN
      | handshake ifN m =>
        have hstep : sparkStep cfg st t (.handshake ifN m) =
            ((handleHandshake cfg st1 t ifN m).1,
              (fireTimersList t st.neighbors).2 ++
                (handleHandshake cfg st1 t ifN m).2) := by
          simp only [sparkStep, handleInput]
        rw [hstep]
        by_cases hifN : ifN = ifName
        · subst hifN
          rw [handleHandshake_noIface cfg st1 t ifN m hifn1]
          exact ⟨hifn1, hkeys1, by rw [eventsForIf_append, hev1]; rfl⟩
        · refine ⟨?_, ?_, ?_⟩
          · unfold findIface
            rw [handleHandshake_ifaces]
            exact hifn1
          · intro kv hkv
            rcases handleHandshake_keys cfg st1 t ifN m kv hkv with h1 | h2
            · obtain ⟨kv2, hkv2, hkeq⟩ := List.mem_map.mp h1
              rw [← hkeq]
              exact hkeys1 kv2 hkv2
            · rw [h2]
              exact hifN
          · rw [eventsForIf_append, hev1, List.nil_append]
            apply eventsForIf_eq_nil
            intro e he
            rw [handleHandshake_events_if cfg st1 t ifN m e he]
            exact hifN
      | heartbeat ifN m =>
        have hstep : sparkStep cfg st t (.heartbeat ifN m) =
            ((handleHeartbeat cfg st1 t ifN m).1,
              (fireTimersList t st.neighbors).2 ++
                (handleHeartbeat cfg st1 t ifN m).2) := by
          simp only [sparkStep, handleInput]
        rw [hstep]
        by_cases hifN : ifN = ifName
        · subst hifN
          rw [handleHeartbeat_noIface cfg st1 t ifN m hifn1]
          exact ⟨hifn1, hkeys1, by rw [eventsForIf_append, hev1]; rfl⟩
        · refine ⟨?_, ?_, ?_⟩
          · unfold findIface
            rw [handleHeartbeat_ifaces]
            exact hifn1
          · intro kv hkv
            rcases handleHeartbeat_keys cfg st1 t ifN m kv hkv with h1 | h2
            · obtain ⟨kv2, hkv2, hkeq⟩ := List.mem_map.mp h1
              rw [← hkeq]
              exact hkeys1 kv2 hkv2
            · rw [h2]
              exact hifN
          · rw [eventsForIf_append, hev1, List.nil_append,
              handleHeartbeat_events_nil]
            rfl
      | updateDb ifs =>
        exact absurd (htr (t, .updateDb ifs) (by simp)) (by simp [noUpdateDbInput])
    have hrun : sparkRun cfg st ((t, i) :: rest) =
        ((sparkRun cfg (sparkStep cfg st t i).1 rest).1,
          (sparkStep cfg st t i).2 ++
            (sparkRun cfg (sparkStep cfg st t i).1 rest).2) := by
      simp [sparkRun]
    rw [hrun, eventsForIf_append, hmain.2.2, List.nil_append]
    exact ih (sparkStep cfg st t i).1 hmain.1 hmain.2.1
      (fun ti2 h2 => htr ti2 (List.mem_cons_of_mem _ h2))

/-- C9: removing an interface via updateInterfaceDb synchronously emits
DOWN for its ESTABLISHED neighbor and removes the neighbor record within
the same step (the timer cancellation is part of the removal); afterwards
no event for the removed interface is ever emitted to subscribers again —
no late timer-driven or packet-driven event from the removed interface is
observable over any further trace (without re-tracking the interface). -/
theorem c9_interface_removal_synchronous_down (cfg : SparkConfig)
    (st : SparkState) (ifName peer : String)
    (pre post : List ((String × String) × Neighbor)) (n : Neighbor)
    (t : Nat) (newIfs : List InterfaceRecord) (trace : List (Nat × SparkInput))
    (hst : st.neighbors = pre ++ ((ifName, peer), n) :: post)
    (hpre : ∀ kv ∈ pre, kv.1 ≠ (ifName, peer))
    (hpost : ∀ kv ∈ post, kv.1 ≠ (ifName, peer))
    (hest : n.state = .ESTABLISHED) (hflag : n.restartFlag = false)
    (hhb : deadlineReached n.heartbeatDeadline t = false)
    (htracked : (findIface st ifName).isSome = true)
    (hnew : ∀ j ∈ newIfs, j.name ≠ ifName)
    (htr : ∀ ti ∈ trace, noUpdateDbInput ti.2) :
    eventsFor ifName peer (sparkStep cfg st t (.updateDb newIfs)).2 =
      [⟨.DOWN, ifName, peer, n.area⟩] ∧
    getSparkNeighState (sparkStep cfg st t (.updateDb newIfs)).1 ifName peer =
      none ∧
    eventsForIf ifName
      (sparkRun cfg (sparkStep cfg st t (.updateDb newIfs)).1 trace).2 = [] := by
  have ht : neighborTimerStep t (ifName, peer) n = (some n, []) := by
    simp [neighborTimerStep, hest, hflag, hhb]
  obtain ⟨hfl, hfp, hfq, hfe⟩ :=
    fireTimersList_decomp t pre post (ifName, peer) n n hpre hpost ht
  rw [← hst] at hfl hfe
  set st1 : SparkState := { st with neighbors := (fireTimersList t st.neighbors).1 }
    with hst1
  set R : List String := (st.ifaces.filter
    (fun i => !(newIfs.any (fun j => j.name == i.name)))).map
      (fun i => i.name) with hR
  obtain ⟨iface, hiface⟩ := Option.isSome_iff_exists.mp htracked
  have hifmem : iface ∈ st.ifaces := by
    unfold findIface at hiface
    exact List.mem_of_find?_eq_some hiface
  have hifname : iface.name = ifName := by
    unfold findIface at hiface
    have := List.find?_some hiface
    simpa using this
  have hifrem : R.contains ifName = true := by
    have hpred : (!(newIfs.any (fun j => j.name == iface.name))) = true := by
      rw [hifname]
      simp only [Bool.not_eq_true']
      rw [List.any_eq_false]
      intro j hj
      simpa using hnew j hj
    have hfil : iface ∈ st.ifaces.filter
        (fun i => !(newIfs.any (fun j => j.name == i.name))) :=
      List.mem_filter.mpr ⟨hifmem, hpred⟩
    have hmem : ifName ∈ R := by
      rw [hR]
      exact List.mem_map.mpr ⟨iface, hfil, hifname⟩
    simpa using hmem
  have hupd : updateInterfaceDb st1 newIfs =
      ({ ifaces := newIfs,
          neighbors := (removeNeighborsOnIfaces R st1.neighbors).1 },
        (removeNeighborsOnIfaces R st1.neighbors).2) := rfl
  have hnbl : st1.neighbors = (fireTimersList t pre).1 ++
      ((ifName, peer), n) :: (fireTimersList t post).1 := hfl
  obtain ⟨hrem1, hrem2⟩ :=
    removeNeighborsOnIfaces_decomp R (fireTimersList t pre).1
      (fireTimersList t post).1 (ifName, peer) n hfp hfq hifrem hest
  have hstep : sparkStep cfg st t (.updateDb newIfs) =
      ((updateInterfaceDb st1 newIfs).1,
        (fireTimersList t st.neighbors).2 ++ (updateInterfaceDb st1 newIfs).2) := by
    simp only [sparkStep, handleInput]
  have hkeysout : ∀ kv ∈ (removeNeighborsOnIfaces R st1.neighbors).1,
      kv.1.1 ≠ ifName := by
    intro kv hkv
    obtain ⟨_, hcon⟩ := removeNeighborsOnIfaces_result_keys R st1.neighbors kv hkv
    intro hceq
    rw [hceq] at hcon
    rw [hifrem] at hcon
    exact absurd hcon (by simp)
  refine ⟨?_, ?_, ?_⟩
  · rw [hstep, eventsFor_append]
    rw [show eventsFor (ifName, peer).1 (ifName, peer).2
        (fireTimersList t st.neighbors).2 = [] from hfe]
    rw [hupd]
    rw [show (removeNeighborsOnIfaces R st1.neighbors).2 =
        (removeNeighborsOnIfaces R ((fireTimersList t pre).1 ++
          ((ifName, peer), n) :: (fireTimersList t post).1)).2 from by rw [hnbl]]
    rw [show eventsFor ifName peer (removeNeighborsOnIfaces R
        ((fireTimersList t pre).1 ++
          ((ifName, peer), n) :: (fireTimersList t post).1)).2 =
        [⟨.DOWN, ifName, peer, n.area⟩] from hrem2]
    rfl
  · rw [hstep, hupd]
    unfold getSparkNeighState
    rw [getNeighbor_fresh]
    · rfl
    · intro kv hkv
      have := hkeysout kv hkv
      intro hceq
      apply this
      rw [hceq]
  · apply sparkRun_removed_iface_silent cfg ifName trace _ ?_ ?_ htr
    · rw [hstep, hupd]
      unfold findIface
      apply List.find?_eq_none.mpr
      intro j hj
      simpa using hnew j hj
    · rw [hstep, hupd]
      exact hkeysout

/-- C1 witness: the GR-window theorem at the concrete restart of node-2 at
time 300 and return at time 600 (inside the 500 ms GR window). -/
theorem c1_gr_window_restarting_restarted_witness :
    eventsFor "iface1" "node-2"
      (sparkRun wCfg wStEst [(300, .hello "iface1" wHelloRestart),
        (600, .hello "iface1" wHelloFresh)]).2 =
      [⟨.RESTARTING, "iface1", "node-2", "0"⟩,
        ⟨.RESTARTED, "iface1", "node-2", "0"⟩] ∧
    getSparkNeighState
      (sparkRun wCfg wStEst [(300, .hello "iface1" wHelloRestart),
        (600, .hello "iface1" wHelloFresh)]).1 "iface1" "node-2" =
      some .ESTABLISHED :=
  c1_gr_window_restarting_restarted wCfg wStEst "iface1" "node-2" [] []
    wNeighEst 300 600 wHelloRestart wHelloFresh rfl (by simp) (by simp) rfl rfl
    (by decide) (by decide) rfl rfl (by decide) rfl rfl rfl (by decide)
    (by decide)

/-- C2 witness: the GR-timeout theorem at the concrete restart at time 300
with the timer check at 800 (= 300 + grHoldMs) firing DOWN, and a check at
600 not yet firing. -/
theorem c2_gr_timeout_down_witness :
    eventsFor "iface1" "node-2"
      (sparkRun wCfg wStEst [(300, .hello "iface1" wHelloRestart),
        (800, .advance)]).2 =
      [⟨.RESTARTING, "iface1", "node-2", "0"⟩,
        ⟨.DOWN, "iface1", "node-2", "0"⟩] ∧
    getSparkNeighState
      (sparkRun wCfg wStEst [(300, .hello "iface1" wHelloRestart),
        (800, .advance)]).1 "iface1" "node-2" = none ∧
    eventsFor "iface1" "node-2"
      (sparkRun wCfg wStEst [(300, .hello "iface1" wHelloRestart),
        (600, .advance)]).2 =
      [⟨.RESTARTING, "iface1", "node-2", "0"⟩] :=
  c2_gr_timeout_down wCfg wStEst "iface1" "node-2" [] [] wNeighEst 300 800 600
    wHelloRestart rfl (by simp) (by simp) rfl rfl (by decide) (by decide) rfl
    rfl (by decide) rfl (by decide) (by decide)

/-- C3 witness: the heartbeat-timeout theorem at the concrete adjacency
refreshed at 250 (deadline 450 = 250 + 200), with the timer check at 450
firing DOWN and a check at 300 not yet firing. -/
theorem c3_heartbeat_timeout_down_witness :
    eventsFor "iface1" "node-2" (sparkRun wCfg wStEst [(450, .advance)]).2 =
      [⟨.DOWN, "iface1", "node-2", "0"⟩] ∧
    getSparkNeighState (sparkRun wCfg wStEst [(450, .advance)]).1
      "iface1" "node-2" = none ∧
    eventsFor "iface1" "node-2" (sparkRun wCfg wStEst [(300, .advance)]).2 = [] ∧
    wNeighEst.heartbeatHoldMs ≤ 450 - 250 ∧
    450 - 250 ≤ 2 * wNeighEst.heartbeatHoldMs ∧ 450 - 250 ≤ wNeighEst.grHoldMs :=
  c3_heartbeat_timeout_down wCfg wStEst "iface1" "node-2" [] [] wNeighEst 250
    450 300 rfl (by simp) (by simp) rfl rfl rfl (by decide) (by decide)
    (by decide) (by decide)

/-- C5 witness: the domain-mismatch theorem at the concrete foreign-domain
hello, handshake and heartbeat from node-2 (domain Winter_Is_Coming
against local Fire_and_Blood). -/
theorem c5_domain_mismatch_drop_witness :
    handleHello wCfg wSt1 0 "iface1" wHelloBadDom = (wSt1, []) ∧
    handleHandshake wCfg wSt1 0 "iface1" wHsBadDom = (wSt1, []) ∧
    handleHeartbeat wCfg wSt1 0 "iface1" wHbBadDom = (wSt1, []) ∧
    getSparkNeighState
      (sparkRun wCfg wSt1 [(0, .hello "iface1" wHelloBadDom),
        (5, .handshake "iface1" wHsBadDom),
        (9, .heartbeat "iface1" wHbBadDom)]).1 "iface1" "node-2" = none ∧
    eventsFor "iface1" "node-2"
      (sparkRun wCfg wSt1 [(0, .hello "iface1" wHelloBadDom),
        (5, .handshake "iface1" wHsBadDom),
        (9, .heartbeat "iface1" wHbBadDom)]).2 = [] :=
  c5_domain_mismatch_drop wCfg wSt1
    [(0, .hello "iface1" wHelloBadDom), (5, .handshake "iface1" wHsBadDom),
      (9, .heartbeat "iface1" wHbBadDom)]
    "iface1" "node-2" "iface1" 0 wHelloBadDom wHsBadDom wHbBadDom
    (by decide) (by decide) (by decide) (by simp [wSt1])
    (by
      intro ti hti
      simp only [List.mem_cons, List.not_mem_nil, or_false] at hti
      rcases hti with rfl | rfl | rfl
      · exact (by decide : wHelloBadDom.domain ≠ wCfg.domainName)
      · exact (by decide : wHsBadDom.domain ≠ wCfg.domainName)
      · exact (by decide : wHbBadDom.domain ≠ wCfg.domainName))

/-- C6 witness: the v4-subnet theorem at the concrete /31 mismatch
(192.168.0.2/31 against advertised 192.168.0.4), with the trace being the
mismatching handshake, and the positive step at the in-subnet address
192.168.0.3. -/
theorem c6_v4_subnet_validation_witness :
    ((∃ s, getSparkNeighState
        (sparkRun wCfg c6st [(250, .handshake "iface1" c6hsBad)]).1
        "iface1" "node-2" = some s ∧ (s = .WARM ∨ s = .NEGOTIATE)) ∧
      eventsFor "iface1" "node-2"
        (sparkRun wCfg c6st [(250, .handshake "iface1" c6hsBad)]).2 = []) ∧
    eventsFor "iface1" "node-2"
      (sparkStep wCfg c6st 250 (.handshake "iface1" c6hsGood)).2 =
      [⟨.UP, "iface1", "node-2", kDefaultArea⟩] ∧
    getSparkNeighState (sparkStep wCfg c6st 250 (.handshake "iface1" c6hsGood)).1
      "iface1" "node-2" = some .ESTABLISHED :=
  c6_v4_subnet_validation wCfg c6st "iface1" "node-2" wIfaceS
    [(250, .handshake "iface1" c6hsBad)] [] [] c6neigh 250 c6hsGood
    kDefaultArea c6st [] [] c6neigh (by decide) rfl (by simp) (by simp)
    (by decide) ⟨Or.inr rfl, rfl, rfl⟩
    (by
      intro ti hti
      simp only [List.mem_singleton] at hti
      subst hti
      exact ⟨rfl, rfl, rfl, rfl, rfl, by decide⟩)
    rfl (by simp) (by simp) (by decide) rfl (by decide) rfl rfl (by decide)
    rfl (by decide)

/-- C7 witness: the unidirectional theorem at the concrete run where
node-1 hears two hellos from node-2 that never reflect node-1, while
node-2 hears nothing (time passes only). -/
theorem c7_unidirectional_stays_warm_witness :
    getSparkNeighState
      (sparkRun wCfg wSt1
        ((0, .hello "iface1" wHelloNoRefl) ::
          [(200, wHelloNoRefl)].map
            (fun tm => (tm.1, SparkInput.hello "iface1" tm.2)))).1
      "iface1" "node-2" = some .WARM ∧
    eventsFor "iface1" "node-2"
      (sparkRun wCfg wSt1
        ((0, .hello "iface1" wHelloNoRefl) ::
          [(200, wHelloNoRefl)].map
            (fun tm => (tm.1, SparkInput.hello "iface1" tm.2)))).2 = [] ∧
    getSparkNeighState (sparkRun wCfg wSt2 [(100, .advance)]).1
      "iface2" "node-1" = none ∧
    eventsFor "iface2" "node-1" (sparkRun wCfg wSt2 [(100, .advance)]).2 = [] :=
  c7_unidirectional_stays_warm wCfg wSt1 "iface1" "node-2" 0 wHelloNoRefl
    [(200, wHelloNoRefl)] (by simp [wSt1]) (by decide) (by decide) rfl rfl
    (by decide)
    (by
      intro tm htm
      simp only [List.mem_singleton] at htm
      subst htm
      exact ⟨rfl, rfl, by decide⟩)
    wCfg wSt2 "iface2" "node-1" [(100, .advance)] (by simp [wSt2])
    (by
      intro ti hti
      simp only [List.mem_singleton] at hti
      subst hti
      rfl)

/-- C8 witness: the self-loop theorem at the concrete hello whose nodeName
is the local node-1, received back on iface1. -/
theorem c8_self_loop_drop_witness :
    handleHello wCfg wSt1 0 "iface1" wHelloSelf = (wSt1, []) ∧
    getSparkNeighState
      (sparkRun wCfg wSt1 [(0, .hello "iface1" wHelloSelf)]).1
      "iface1" wCfg.nodeName = none ∧
    eventsFor "iface1" wCfg.nodeName
      (sparkRun wCfg wSt1 [(0, .hello "iface1" wHelloSelf)]).2 = [] :=
  c8_self_loop_drop wCfg wSt1 [(0, .hello "iface1" wHelloSelf)] "iface1"
    "iface1" 0 wHelloSelf rfl (by simp [wSt1])
    (by
      intro ti hti
      simp only [List.mem_singleton] at hti
      subst hti
      exact rfl)

/-- C9 witness: the interface-removal theorem at the concrete removal of
iface1 at time 300 (established neighbor node-2 goes DOWN synchronously),
followed by a late hello on the removed interface at 400 and a timer check
at 900, neither of which produces any event. -/
theorem c9_interface_removal_synchronous_down_witness :
    eventsFor "iface1" "node-2" (sparkStep wCfg wStEst 300 (.updateDb [])).2 =
      [⟨.DOWN, "iface1", "node-2", "0"⟩] ∧
    getSparkNeighState (sparkStep wCfg wStEst 300 (.updateDb [])).1
      "iface1" "node-2" = none ∧
    eventsForIf "iface1"
      (sparkRun wCfg (sparkStep wCfg wStEst 300 (.updateDb [])).1
        [(400, .hello "iface1" wHelloFresh), (900, .advance)]).2 = [] :=
  c9_interface_removal_synchronous_down wCfg wStEst "iface1" "node-2" [] []
    wNeighEst 300 [] [(400, .hello "iface1" wHelloFresh), (900, .advance)]
    rfl (by simp) (by simp) rfl rfl (by decide) (by decide) (by simp)
    (by
      intro ti hti
      simp only [List.mem_cons, List.not_mem_nil, or_false] at hti
      rcases hti with rfl | rfl
      · exact trivial
      · exact trivial)

end Openr
